import Mathlib

/-!
Verification development for the trafikinfo backend (FastAPI + SQLAlchemy).

The definitions below are a shallow embedding of the relevant parts of
`src/backend/main.py`, `src/backend/trafikverket.py`, `src/backend/mqtt_client.py`
and the schema in `src/backend/database.py`.

Modelling conventions, used throughout:
- Python `datetime` values are modelled by their ISO strings; `datetime.fromisoformat`
  is the identity on this model, and comparison of datetimes is string comparison
  (the upstream feed delivers uniformly formatted ISO strings, which the source
  itself compares as raw strings inside `parse_situation`).
- A Python value read with `dict.get` / a nullable ORM column is an `Option`.
  Python truthiness of an optional string is `pyTruthy` (None and the empty
  string are falsy); truthiness of an optional float is `pyTruthyQ` (None and
  0.0 are falsy).
- Network and filesystem I/O is passed in as explicit oracles (a `net` function
  for HTTP responses, a `snap` function for the result of a snapshot download).
- The great-circle `calculate_distance` computes with floating point
  trigonometry; it is abstracted as a parameter `d : ℚ → ℚ → ℚ → ℚ → ℚ` of the
  camera matcher, with the source's treatment of missing coordinates
  (distance infinity, i.e. never within range) modelled by `calcDist` returning
  `none`.
- JSON-encoded columns (`extra_cameras`) are modelled structurally as
  `Option (List ExtraCam)`.
-/

/-- Python truthiness of an optional string: `None` and `""` are falsy. -/
def pyTruthy : Option String → Bool
  | none => false
  | some s => !s.isEmpty

/-- Python truthiness of an optional rational (a float column): `None` and `0.0` are falsy. -/
def pyTruthyQ : Option ℚ → Bool
  | none => false
  | some q => q != 0

/-- Python `a or b` on optional strings: `b` when `a` is falsy. -/
def pyOr (a b : Option String) : Option String :=
  if pyTruthy a then a else b

/-- Python `str(x)` of an optional value as it appears inside f-strings:
`str(None)` is the literal string "None". -/
def strOfOptNat : Option Nat → String
  | none => "None"
  | some n => toString n

/-- Python `str(x)` for an optional string (f-string rendering of a value that
may be `None`). -/
def strOfOptStr : Option String → String
  | none => "None"
  | some s => s

/-- The columns of `database.PushSubscription` that `notify_subscribers` reads.
`counties` is stored as a comma-separated string; `topic_realtid`,
`topic_road_condition` are 0/1 integer flags; the schema default for
`min_severity` is 3. -/
structure PushSubscription where
  endpoint : String
  counties : Option String
  min_severity : Nat
  topic_realtid : Nat
  topic_road_condition : Nat
deriving DecidableEq, Repr

/-- The fields of the broadcast dict that the push filter in
`notify_subscribers` reads. -/
structure PushData where
  county_no : Option Nat
  severity_code : Option Nat
deriving DecidableEq, Repr

/-- Helper for `pySplitComma`: walks the characters, cutting at commas. -/
def splitCommaAux : List Char → List Char → List String
  | [], acc => [String.mk acc.reverse]
  | c :: cs, acc =>
    if c = ',' then String.mk acc.reverse :: splitCommaAux cs []
    else splitCommaAux cs (c :: acc)

/-- Python `s.split(",")`: splits at every comma, keeping empty fields. -/
def pySplitComma (s : String) : List String :=
  splitCommaAux s.data []

/-- `sub.counties.split(",") if sub.counties else []` from `notify_subscribers`. -/
def allowedCounties (sub : PushSubscription) : List String :=
  match sub.counties with
  | none => []
  | some s => if s.isEmpty then [] else pySplitComma s

/-- The per-subscription filter of `main.notify_subscribers` (lines 1906-1933):
skip when counties are configured and the entity county is not among them; for
`type == "event"` additionally skip when `topic_realtid` is disabled or
`(severity or 0) < min_severity`; for road conditions skip when
`topic_road_condition` is disabled. -/
def subscriberAllowed (data : PushData) (ty : String) (sub : PushSubscription) : Bool :=
  let allowed := allowedCounties sub
  let item_county := strOfOptNat data.county_no
  if !allowed.isEmpty && !allowed.contains item_county then false
  else if ty == "event" then
    sub.topic_realtid != 0 && decide (sub.min_severity ≤ data.severity_code.getD 0)
  else
    sub.topic_road_condition != 0

/-- `main.notify_subscribers`: iterates over all push subscriptions and calls
`send_push_notification` exactly for those passing `subscriberAllowed`; the
result models the ordered list of subscriptions that receive a delivery. -/
def notify_subscribers (subs : List PushSubscription) (data : PushData) (ty : String) :
    List PushSubscription :=
  subs.filter (subscriberAllowed data ty)

/-- An HTTP response as `download_camera_snapshot` inspects it: a status code
and a body, modelled as an abstract byte list (only its length and identity
matter to the source). -/
structure HttpResponse where
  status : Nat
  body : List Nat
deriving DecidableEq, Repr

/-- The relative path `f"{county_no}/{event_id}_{int(now.timestamp())}.jpg"`
built by `download_camera_snapshot`. -/
def snapshotRelativePath (county_no : Nat) (event_id : String) (nowTs : Nat) : String :=
  toString county_no ++ "/" ++ event_id ++ "_" ++ toString nowTs ++ ".jpg"

/-- The "fullsize validity" test of `download_camera_snapshot`: status 200 and
body at least 5000 bytes. -/
def is_valid_fullsize (r : HttpResponse) : Bool :=
  r.status == 200 && 5000 ≤ r.body.length

/-- The response `download_camera_snapshot` ends up writing: the fullsize URL's
response, unless it is invalid and the base URL differs, in which case the base
URL is fetched instead. -/
def chosenResponse (net : String → HttpResponse) (fullsize_url url : String) : HttpResponse :=
  if !is_valid_fullsize (net fullsize_url) && fullsize_url != url then net url
  else net fullsize_url

/-- The final acceptance check of `download_camera_snapshot`: a response is
written iff status 200 and at least 1500 bytes; below 1500 bytes it is
discarded as corrupt. -/
def finalizeDownload (path : String) (r : HttpResponse) : Option (String × List Nat) :=
  if r.status == 200 then
    if r.body.length < 1500 then none else some (path, r.body)
  else none

/-- `main.download_camera_snapshot` (lines 568-634), with HTTP modelled by the
oracle `net : url → response` and the wall clock by `nowTs`. Returns the
relative path together with the body written to disk, or `none` when the
download is rejected. Directory-creation failure (an OS error path) is not
modelled. -/
def download_camera_snapshot (net : String → HttpResponse) (url : String)
    (event_id : String) (county_no : Nat) (explicit_fullsize_url : Option String)
    (nowTs : Nat) : Option (String × List Nat) :=
  if url = "" then none
  else
    finalizeDownload (snapshotRelativePath county_no event_id nowTs)
      (chosenResponse net ((pyOr explicit_fullsize_url (some url)).getD url) url)

/-- The concrete network of scenario S6: 4 KB at the fullsize URL "f",
12 KB at the base URL "u". -/
def netS6 : String → HttpResponse :=
  fun s => if s = "f" then ⟨200, List.replicate 4096 5⟩ else ⟨200, List.replicate 12288 7⟩

/-- One upstream deviation as `trafikverket.parse_situation` reads it. All
scalar fields are the raw JSON values (absent keys are `none`).
`geometry` is the first coordinate pair `(longitude, latitude)` extracted by
the WKT regex from `Geometry.Point.WGS84` or `Geometry.Line.WGS84`; an absent
or unparseable WKT is `none`. `countyNo` is the upstream `CountyNo` list
(an absent key or a scalar value is collapsed to the corresponding list). -/
structure Deviation where
  header : Option String
  message : Option String
  iconId : Option String
  description : Option String
  trafficRestrictionType : Option String
  messageCode : Option String
  messageType : Option String
  startTime : Option String
  endTime : Option String
  severityCode : Option Nat
  severityText : Option String
  roadNumber : Option String
  locationDescriptor : Option String
  temporaryLimit : Option String
  creationTime : Option String
  geometry : Option (ℚ × ℚ)
  countyNo : List Nat
deriving DecidableEq, Repr

/-- One upstream situation: its `Id` and its `Deviation` list (absent key
modelled as `[]`). -/
structure Situation where
  id : Option String
  deviations : List Deviation
deriving DecidableEq, Repr

/-- The normalized incident dict produced per situation by `parse_situation`
(lines 194-213 of `trafikverket.py`). -/
structure ParsedEvent where
  external_id : Option String
  title : String
  description : Option String
  location : Option String
  icon_id : Option String
  event_type : String
  timestamp : Option String
  message_type : Option String
  severity_code : Option Nat
  severity_text : Option String
  road_number : Option String
  start_time : Option String
  end_time : Option String
  temporary_limit : Option String
  traffic_restriction_type : Option String
  latitude : Option ℚ
  longitude : Option ℚ
  county_no : Nat
deriving DecidableEq, Repr

/-- The merge pattern of `parse_situation`'s deviation loop: collect truthy
values, first-seen order, skipping duplicates. -/
def mergeUnique (get : Deviation → Option String) (devs : List Deviation) : List String :=
  devs.foldl (fun acc dv =>
    match get dv with
    | some s => if !s.isEmpty && !acc.contains s then acc ++ [s] else acc
    | none => acc) []

/-- Python string comparison `a < b`: lexicographic by code point, written
structurally so that it evaluates by kernel reduction (Lean's own
`String.decidableLT` goes through `String.ltb` and does not). -/
def pyStrLtChars : List Char → List Char → Bool
  | [], [] => false
  | [], _ :: _ => true
  | _ :: _, [] => false
  | a :: as, b :: bs => if a < b then true else if b < a then false else pyStrLtChars as bs

/-- Python `a < b` on strings. -/
def pyStrLt (a b : String) : Bool :=
  pyStrLtChars a.data b.data

/-- The earliest-start fold of `parse_situation` (lines 180-183): a deviation's
truthy `StartTime` replaces the accumulator when the accumulator is falsy or
the new value is smaller (raw string comparison, as in the source). -/
def foldStartTime (devs : List Deviation) (init : Option String) : Option String :=
  devs.foldl (fun st dv =>
    if pyTruthy dv.startTime && (!pyTruthy st || pyStrLt (dv.startTime.getD "") (st.getD "")) then
      dv.startTime
    else st) init

/-- The latest-end fold of `parse_situation` (lines 184-185), dual to
`foldStartTime`. -/
def foldEndTime (devs : List Deviation) (init : Option String) : Option String :=
  devs.foldl (fun st dv =>
    if pyTruthy dv.endTime && (!pyTruthy st || pyStrLt (st.getD "") (dv.endTime.getD "")) then
      dv.endTime
    else st) init

/-- Geometry of the first deviation that carries one (lines 169-177). -/
def firstGeometry (devs : List Deviation) : Option (ℚ × ℚ) :=
  devs.foldl (fun acc dv => if acc.isNone then dv.geometry else acc) none

/-- The fixed `icon_text_map` dictionary of `parse_situation`. -/
def icon_text_map : String → Option String
  | "vehicleBreakdown" => some "Fordonshaveri"
  | "accident" => some "Trafikolycka"
  | "roadWork" => some "Vägarbete"
  | "congestion" => some "Köbildning"
  | "obstruction" => some "Hinder på väg"
  | "roadConditions" => some "Väglag"
  | "trafficMessage" => some "Trafikmeddelande"
  | _ => none

/-- Title derivation (lines 187-192): Header, else Message, else the icon map,
else the joined message types, else "Trafikhändelse". -/
def situationTitle (fd : Deviation) (merged_message_types : List String) : String :=
  let t1 := pyOr fd.header fd.message
  let t2 := if !pyTruthy t1 && pyTruthy fd.iconId then icon_text_map (fd.iconId.getD "") else t1
  if !pyTruthy t2 then
    if merged_message_types ≠ [] then String.intercalate " / " merged_message_types
    else "Trafikhändelse"
  else t2.getD ""

/-- The per-situation body of `trafikverket.parse_situation` (lines 128-214):
skips situations without deviations, merges the deviations of the rest into a
single normalized incident. -/
def normalizeSituation (sit : Situation) : Option ParsedEvent :=
  match sit.deviations with
  | [] => none
  | fd :: _ =>
    let devs := sit.deviations
    let merged_desc := mergeUnique (fun d => d.description) devs
    let merged_restrictions := mergeUnique (fun d => d.trafficRestrictionType) devs
    let merged_message_types := mergeUnique (fun d => pyOr d.messageCode d.messageType) devs
    let geo := firstGeometry devs
    some
      { external_id := sit.id
        title := situationTitle fd merged_message_types
        description :=
          if merged_desc ≠ [] then some (String.intercalate " | " merged_desc) else none
        location := fd.locationDescriptor
        icon_id := fd.iconId
        event_type := "Situation"
        timestamp := fd.creationTime
        message_type :=
          if merged_message_types ≠ [] then some (String.intercalate ", " merged_message_types)
          else none
        severity_code := fd.severityCode
        severity_text := fd.severityText
        road_number := fd.roadNumber
        start_time := foldStartTime devs fd.startTime
        end_time := foldEndTime devs fd.endTime
        temporary_limit := fd.temporaryLimit
        traffic_restriction_type :=
          if merged_restrictions ≠ [] then some (String.intercalate ", " merged_restrictions)
          else none
        latitude := geo.map Prod.snd
        longitude := geo.map Prod.fst
        county_no := fd.countyNo.headD 0 }

/-- One record taken off the upstream SSE queue: either a payload whose
`json.loads` fails, or a decoded batch of situations. -/
inductive RawStreamItem where
  | malformedJson : RawStreamItem
  | batch : List Situation → RawStreamItem
deriving DecidableEq, Repr

/-- `trafikverket.parse_situation` including its exception behaviour
(lines 104-220). On a payload that `json.loads` cannot parse, the first
`except` clause executes `return parsed_events` before `parsed_events` was
ever assigned, so the handler itself raises `UnboundLocalError`, which escapes
the function; the second `except` clause (which would log and return the empty
list) is unreachable dead code. On a decoded batch, one normalized incident is
emitted per situation with at least one deviation. -/
def parse_situation : RawStreamItem → Except String (List ParsedEvent)
  | RawStreamItem.malformedJson =>
    Except.error "UnboundLocalError: local variable referenced before assignment"
  | RawStreamItem.batch sits => Except.ok (sits.filterMap normalizeSituation)

/-- The stream-draining loop of `main.event_processor` (lines 636-982) applied
to a finite prefix of the stream: `parse_situation raw` is called outside the
per-batch try/except, so an exception from it propagates to the outermost
handler, which logs once and lets the coroutine return. The result is the list
of batches actually processed, paired with a flag that is true when the loop
was terminated by such an exception. -/
def event_processor_drain : List RawStreamItem → List (List ParsedEvent) × Bool
  | [] => ([], false)
  | item :: rest =>
    match parse_situation item with
    | Except.error _ => ([], true)
    | Except.ok evs =>
      let out := event_processor_drain rest
      (evs :: out.1, out.2)

/-- A deviation with every field absent, used to build concrete situations. -/
def emptyDeviation : Deviation :=
  ⟨none, none, none, none, none, none, none, none, none, none, none, none, none, none, none,
    none, []⟩

/-- Deviation "A" of scenario S1: description "A", 10:00 to 12:00. -/
def devA : Deviation :=
  { emptyDeviation with
      description := some "A", startTime := some "10:00", endTime := some "12:00" }

/-- Deviation "B" of scenario S1: description "B", 09:30 to 12:45. -/
def devB : Deviation :=
  { emptyDeviation with
      description := some "B", startTime := some "09:30", endTime := some "12:45" }

/-- The situation of scenario S1. -/
def sitS1 : Situation := ⟨some "S1", [devA, devB]⟩

/-- Spec-side helper (claim C7 wording): the truthy values of a deviation
field, in deviation order. -/
def truthyVals (get : Deviation → Option String) (devs : List Deviation) : List String :=
  devs.filterMap (fun dv =>
    match get dv with
    | some s => if s.isEmpty then none else some s
    | none => none)

/-- Spec-side helper (claim C7 wording): deduplicate a list keeping the first
occurrence of each value. -/
def firstSeenDedup (l : List String) : List String :=
  l.foldl (fun acc s => if acc.contains s then acc else acc ++ [s]) []

/-- The incident that `normalizeSituation` produces for scenario S1. -/
def evS1 : ParsedEvent :=
  ⟨some "S1", "Trafikhändelse", some "A | B", none, none, "Situation", none, none, none, none,
    none, some "09:30", some "12:45", none, none, none, none, 0⟩

/-- Python `str.upper()` restricted to the characters occurring in Swedish
camera names: ASCII letters plus å, ä, ö. -/
def pyUpperChar (c : Char) : Char :=
  if c = 'ä' then 'Ä' else if c = 'å' then 'Å' else if c = 'ö' then 'Ö' else c.toUpper

/-- Python `s.upper()` on a string (same restriction as `pyUpperChar`). -/
def pyUpper (s : String) : String :=
  String.mk (s.data.map pyUpperChar)

/-- Python `s.replace(" ", "")` as used on camera names and target roads. -/
def stripSpaces (s : String) : String :=
  String.mk (s.data.filter (fun c => c != ' '))

/-- A regex word character (`\w`) for the road-token pattern, restricted to
the alphabet of Swedish camera names: alphanumerics, underscore, å/ä/ö. -/
def isWordChar (c : Char) : Bool :=
  c.isAlphanum || c == '_' || c == 'Ä' || c == 'Å' || c == 'Ö' ||
    c == 'ä' || c == 'å' || c == 'ö'

/-- Case-insensitive character comparison (the pattern is compiled with
`re.I`). -/
def charEqI (a b : Char) : Bool :=
  pyUpperChar a == pyUpperChar b

/-- Match a literal alternative prefix case-insensitively; returns the consumed
input characters and the rest. -/
def matchLit : List Char → List Char → Option (List Char × List Char)
  | [], cs => some ([], cs)
  | _ :: _, [] => none
  | p :: ps, c :: cs =>
    if charEqI c p then
      match matchLit ps cs with
      | some (tk, rest) => some (c :: tk, rest)
      | none => none
    else none

/-- Try the road-token pattern `(E\d+|RV\d+|LV\d+|VÄG\d+|LÄN\d+)\b` at the
current position (the leading `\b` is checked by the caller): one alternative
literal, then a maximal non-empty digit run, then no word character. Greedy
`\d+` needs no backtracking here because shortening the digit run always
leaves a digit (a word character) after it. -/
def matchRoadAt (cs : List Char) : Option (List Char × List Char) :=
  ["E", "RV", "LV", "VÄG", "LÄN"].findSome? (fun lit =>
    match matchLit lit.data cs with
    | some (consumed, rest) =>
      let ds := rest.takeWhile Char.isDigit
      let rest2 := rest.dropWhile Char.isDigit
      if ds.isEmpty then none
      else
        match rest2 with
        | [] => some (consumed ++ ds, [])
        | c :: _ => if isWordChar c then none else some (consumed ++ ds, rest2)
    | none => none)

/-- Left-to-right non-overlapping scan of `re.findall` for the road-token
pattern: attempt a match only at word boundaries (previous character not a word
character), and continue after each match. `fuel` bounds the scan by the input
length. -/
def findTokensAux : Nat → Bool → List Char → List String
  | 0, _, _ => []
  | _ + 1, _, [] => []
  | fuel + 1, prevW, c :: cs =>
    if !prevW then
      match matchRoadAt (c :: cs) with
      | some (tok, rest) => String.mk tok :: findTokensAux fuel true rest
      | none => findTokensAux fuel (isWordChar c) cs
    else findTokensAux fuel (isWordChar c) cs

/-- `road_pattern.findall(s)` for the pattern
`\b(E\d+|RV\d+|LV\d+|VÄG\d+|LÄN\d+)\b` compiled with `re.I`. -/
def roadTokens (s : String) : List String :=
  findTokensAux (s.data.length + 1) false s.data

/-- A camera dict as `find_nearby_cameras` reads it (the fields built by
`trafikverket.get_cameras`). -/
structure Camera where
  id : Option String
  name : Option String
  url : Option String
  fullsize_url : Option String
  latitude : Option ℚ
  longitude : Option ℚ
deriving DecidableEq, Repr

/-- `clean_target` from `find_nearby_cameras`: `None` for a falsy road, else
the road with spaces removed, uppercased. -/
def clean_target (s : Option String) : Option String :=
  if pyTruthy s then some (pyUpper (stripSpaces (s.getD ""))) else none

/-- `calculate_distance` abstracted: the trigonometric great-circle formula is
the parameter `d`; a camera without coordinates gets `float('inf')` in the
source, which is never within a finite radius, modelled as `none`. -/
def calcDist (d : ℚ → ℚ → ℚ → ℚ → ℚ) (la lo : ℚ) (cam : Camera) : Option ℚ :=
  match cam.latitude, cam.longitude with
  | some cla, some clo => some (d la lo cla clo)
  | _, _ => none

/-- The road tokens the source extracts for a camera: the pattern is run on
the camera name uppercased with spaces removed (`cam_name.replace(" ", "")`). -/
def camRoadTokens (cam : Camera) : List String :=
  roadTokens (stripSpaces (pyUpper (cam.name.getD "")))

/-- The road-affinity filter of `find_nearby_cameras` (lines 336-344): with a
target road, a camera whose (space-stripped) name mentions road tokens none of
which equals the target is rejected; cameras mentioning no tokens are kept. -/
def roadFilterOk (norm_target : Option String) (cam : Camera) : Bool :=
  match norm_target with
  | none => true
  | some tgt =>
    let roads := camRoadTokens cam
    if !roads.isEmpty && !(roads.map pyUpper).contains tgt then false else true

/-- The candidate loop of `find_nearby_cameras` (lines 323-350): keep cameras
with a truthy URL, within `max_dist_km`, passing the road filter; each kept
camera is paired with its computed distance (the `match_dist` key). -/
def nearbyCandidates (d : ℚ → ℚ → ℚ → ℚ → ℚ) (la lo : ℚ) (cams : List Camera)
    (norm_target : Option String) (max_dist_km : ℚ) : List (Camera × ℚ) :=
  cams.filterMap (fun cam =>
    if !pyTruthy cam.url then none
    else
      match calcDist d la lo cam with
      | none => none
      | some dist =>
        if max_dist_km < dist then none
        else if roadFilterOk norm_target cam then some (cam, dist) else none)

/-- Stable insertion by distance (the comparison key of
`nearby.sort(key=...)`). -/
def insertByDist (p : Camera × ℚ) : List (Camera × ℚ) → List (Camera × ℚ)
  | [] => [p]
  | q :: l => if p.2 ≤ q.2 then p :: q :: l else q :: insertByDist p l

/-- Stable sort by distance, modelling Python's stable `list.sort` with the
`match_dist` key. -/
def sortByDist : List (Camera × ℚ) → List (Camera × ℚ)
  | [] => []
  | p :: l => insertByDist p (sortByDist l)

/-- `trafikverket.find_nearby_cameras` (lines 307-355): empty result without
coordinates or cameras; otherwise filter, sort by distance, take `limit`. -/
def find_nearby_cameras (lat lon : Option ℚ) (cams : List Camera)
    (target_road : Option String) (max_dist_km : ℚ) (limit : Nat)
    (d : ℚ → ℚ → ℚ → ℚ → ℚ) : List (Camera × ℚ) :=
  match lat, lon with
  | some la, some lo =>
    if cams.isEmpty then []
    else (sortByDist (nearbyCandidates d la lo cams (clean_target target_road) max_dist_km)).take
      limit
  | _, _ => []

/-- The camera of the C8 counterexample: its raw name "E4 SYD" matches the
road-token regex (token "E4"), but after the source's space-stripping the
name reads "E4SYD" and matches no token. -/
def camE4Syd : Camera := ⟨some "C1", some "E4 SYD", some "u", none, some 1, some 1⟩

/-- A constant stand-in for the great-circle formula (1 km to everything). -/
def constDist : ℚ → ℚ → ℚ → ℚ → ℚ := fun _ _ _ _ => 1

/-- One entry of the JSON-encoded `extra_cameras` column, modelled
structurally: `{"id": ..., "name": ..., "snapshot": ...}`. -/
structure ExtraCam where
  id : Option String
  name : Option String
  snapshot : Option String
deriving DecidableEq, Repr

/-- A `database.TrafficEvent` row, restricted to the columns the event
processor reads or writes (the persistent weather columns are never touched by
`event_processor` and are omitted). `created_at` / `updated_at` carry the
ISO-string clock of the model; `pushed_to_mqtt` is the 0/1 flag as a Bool. -/
structure TrafficEvent where
  id : Nat
  external_id : Option String
  event_type : String
  title : String
  description : Option String
  location : Option String
  icon_id : Option String
  message_type : Option String
  severity_code : Option Nat
  severity_text : Option String
  road_number : Option String
  start_time : Option String
  end_time : Option String
  temporary_limit : Option String
  traffic_restriction_type : Option String
  latitude : Option ℚ
  longitude : Option ℚ
  county_no : Nat
  camera_url : Option String
  camera_name : Option String
  camera_snapshot : Option String
  extra_cameras : Option (List ExtraCam)
  created_at : String
  updated_at : String
  pushed_to_mqtt : Bool
deriving DecidableEq, Repr

/-- A `database.TrafficEventVersion` row. The schema has a `county_no` column,
but the constructor call in `event_processor` (lines 735-757) does not set it,
so it stays `NULL`; it is kept here as `Option Nat` to record that fact.
Weather columns (also never set) are omitted. -/
structure TrafficEventVersion where
  event_id : Nat
  external_id : Option String
  version_timestamp : String
  title : String
  description : Option String
  location : Option String
  icon_id : Option String
  message_type : Option String
  severity_code : Option Nat
  severity_text : Option String
  road_number : Option String
  start_time : Option String
  end_time : Option String
  temporary_limit : Option String
  traffic_restriction_type : Option String
  latitude : Option ℚ
  longitude : Option ℚ
  county_no : Option Nat
  camera_url : Option String
  camera_name : Option String
  camera_snapshot : Option String
  extra_cameras : Option (List ExtraCam)
deriving DecidableEq, Repr

/-- `datetime.fromisoformat(ev['start_time']) if ev.get('start_time') else None`
(datetimes are ISO strings in the model, so the parse is the identity). -/
def evStart (ev : ParsedEvent) : Option String :=
  if pyTruthy ev.start_time then ev.start_time else none

/-- The same guard for `end_time`. -/
def evEnd (ev : ParsedEvent) : Option String :=
  if pyTruthy ev.end_time then ev.end_time else none

/-- The `has_changed` significant-change test of `event_processor`
(lines 720-730): plain inequality on seven fields, and for `start_time` /
`end_time` an inequality that only counts when the incoming update carries a
truthy value. -/
def has_changed (ex : TrafficEvent) (ev : ParsedEvent) : Bool :=
  (ex.title != ev.title) || (ex.description != ev.description) ||
  (ex.location != ev.location) || (ex.severity_code != ev.severity_code) ||
  (ex.message_type != ev.message_type) || (ex.temporary_limit != ev.temporary_limit) ||
  (ex.traffic_restriction_type != ev.traffic_restriction_type) ||
  (pyTruthy ev.start_time && (ex.start_time != ev.start_time)) ||
  (pyTruthy ev.end_time && (ex.end_time != ev.end_time))

/-- The `TrafficEventVersion` constructor call of `event_processor`
(lines 735-757): a copy of the pre-update row's content and camera fields with
`version_timestamp = now`; `county_no` is not among the keyword arguments and
stays unset. -/
def mkVersion (now : String) (ex : TrafficEvent) : TrafficEventVersion :=
  { event_id := ex.id, external_id := ex.external_id, version_timestamp := now,
    title := ex.title, description := ex.description, location := ex.location,
    icon_id := ex.icon_id, message_type := ex.message_type,
    severity_code := ex.severity_code, severity_text := ex.severity_text,
    road_number := ex.road_number, start_time := ex.start_time, end_time := ex.end_time,
    temporary_limit := ex.temporary_limit,
    traffic_restriction_type := ex.traffic_restriction_type, latitude := ex.latitude,
    longitude := ex.longitude, county_no := none, camera_url := ex.camera_url,
    camera_name := ex.camera_name, camera_snapshot := ex.camera_snapshot,
    extra_cameras := ex.extra_cameras }

/-- `loc_changed` of `event_processor` (lines 666-670): computed for existing
rows but never used to set `needs_camera_sync` (see `needs_camera_sync`). -/
def loc_changed (ex : TrafficEvent) (ev : ParsedEvent) : Bool :=
  (ev.latitude.isSome && (ex.latitude != ev.latitude)) ||
  (ev.longitude.isSome && (ex.longitude != ev.longitude))

/-- `has_missing_extra` of `event_processor` (lines 672-680): some recorded
extra camera has a falsy snapshot. Also computed but never used. -/
def has_missing_extra (ex : TrafficEvent) : Bool :=
  match ex.extra_cameras with
  | none => false
  | some l => l.any (fun c => !pyTruthy c.snapshot)

/-- `needs_camera_sync` as `event_processor` actually computes it
(lines 662-682): initialised to False, set to True only for a new event.  The
else branch (existing row) computes `loc_changed` and `has_missing_extra` but
contains no assignment to `needs_camera_sync`, so the flag stays False for
every existing row. -/
def needs_camera_sync (existing : Option TrafficEvent) : Bool :=
  match existing with
  | none => true
  | some _ => false

/-- The configuration and I/O environment of one processing step: the camera
cache, the abstract great-circle formula, the `camera_radius_km` setting, the
snapshot-download oracle (keyed by the event-id string passed to
`download_camera_snapshot`), the push subscriptions, the MQTT connection state
(`mqtt_client.publish_event` publishes iff connected), and the wall clock. -/
structure ProcCfg where
  cams : List Camera
  d : ℚ → ℚ → ℚ → ℚ → ℚ
  max_dist : ℚ
  snap : String → Option String
  subs : List PushSubscription
  mqttConnected : Bool
  now : String

/-- The observable state of the incident pipeline: the `traffic_events` rows,
the `traffic_event_versions` rows, the number of MQTT publishes and push
deliveries performed, and the autoincrement counter for row ids. -/
structure PState where
  rows : List TrafficEvent
  versions : List TrafficEventVersion
  mqttPublishes : Nat
  pushDeliveries : Nat
  nextId : Nat
deriving Repr

/-- Replace the first element satisfying `p` (SQLAlchemy's `query(...).first()`
followed by an in-place update). -/
def updateFirst (p : α → Bool) (f : α → α) : List α → List α
  | [] => []
  | x :: xs => if p x then f x :: xs else x :: updateFirst p f xs

/-- `str(c.get('id', idx)).replace(":", "_")` (line 700): an absent camera id
defaults to the enumeration index; colons become underscores. -/
def sanitizeCamId (cid : Option String) (idx : Nat) : String :=
  String.mk ((match cid with
    | some s => s
    | none => toString idx).data.map (fun c => if c = ':' then '_' else c))

/-- The insert branch of `event_processor` (lines 816-847 plus the shared MQTT
and push tail, lines 849-938): find nearby cameras, download extra-camera and
primary snapshots through the oracle, insert the new row, publish to MQTT
(when connected) and notify push subscribers (new events only). -/
def insertedRow (cfg : ProcCfg) (nextId : Nat) (ev : ParsedEvent) : TrafficEvent :=
  let nearby := find_nearby_cameras ev.latitude ev.longitude cfg.cams ev.road_number
    cfg.max_dist 5 cfg.d
  let camera_url := match nearby.head? with | some p => p.1.url | none => none
  let camera_name := match nearby.head? with | some p => p.1.name | none => none
  let extra_cams_data := (nearby.drop 1).enum.filterMap (fun ic =>
    if !pyTruthy ic.2.1.url then none
    else some (ExtraCam.mk ic.2.1.id ic.2.1.name
      (cfg.snap (strOfOptStr ev.external_id ++ "_" ++ sanitizeCamId ic.2.1.id ic.1))))
  let extra_cameras_json := if extra_cams_data.isEmpty then none else some extra_cams_data
  let snapshot := if pyTruthy camera_url then cfg.snap (strOfOptStr ev.external_id) else none
  { id := nextId, external_id := ev.external_id, event_type := ev.event_type,
    title := ev.title, description := ev.description, location := ev.location,
    icon_id := ev.icon_id, message_type := ev.message_type,
    severity_code := ev.severity_code, severity_text := ev.severity_text,
    road_number := ev.road_number, start_time := evStart ev, end_time := evEnd ev,
    temporary_limit := ev.temporary_limit,
    traffic_restriction_type := ev.traffic_restriction_type,
    latitude := ev.latitude, longitude := ev.longitude, county_no := ev.county_no,
    camera_url := camera_url, camera_name := camera_name, camera_snapshot := snapshot,
    extra_cameras := extra_cameras_json, created_at := cfg.now, updated_at := cfg.now,
    pushed_to_mqtt := cfg.mqttConnected }

def insertNewEvent (cfg : ProcCfg) (st : PState) (ev : ParsedEvent) : PState :=
  { rows := st.rows ++ [insertedRow cfg st.nextId ev], versions := st.versions,
    mqttPublishes := st.mqttPublishes + (if cfg.mqttConnected then 1 else 0),
    pushDeliveries := st.pushDeliveries +
      (notify_subscribers cfg.subs ⟨some ev.county_no, ev.severity_code⟩ "event").length,
    nextId := st.nextId + 1 }

/-- The final camera fields of an updated existing row (lines 783-811).
For an existing row `needs_camera_sync` is False (see its definition), the
local `camera_url`/`camera_name` are the row's own values (lines 710-713), and
`primary_cam` is None, so: on a significant change with a camera URL a fresh
snapshot is downloaded and, when truthy, stored; otherwise a snapshot is
downloaded only when the row has a camera URL but no snapshot yet. -/
def updateCameraFields (cfg : ProcCfg) (ex : TrafficEvent) (ev : ParsedEvent)
    (hasChanged : Bool) : Option String × Option String × Option String :=
  let camera_url := ex.camera_url
  let camera_name := ex.camera_name
  if needs_camera_sync (some ex) || (hasChanged && pyTruthy ex.camera_url) then
    if pyTruthy ex.camera_url then
      match cfg.snap (strOfOptStr ev.external_id) with
      | some file =>
        (pyOr camera_url ex.camera_url, pyOr camera_name ex.camera_name, some file)
      | none => (camera_url, camera_name, ex.camera_snapshot)
    else (camera_url, camera_name, ex.camera_snapshot)
  else
    if pyTruthy camera_url && !pyTruthy ex.camera_snapshot then
      (camera_url, camera_name, cfg.snap (strOfOptStr ev.external_id))
    else (camera_url, camera_name, ex.camera_snapshot)

/-- Some column written by the update branch carries a value different from
the stored one, i.e. the ORM flush has a net change and emits an UPDATE
statement. The schema declares the `updated_at` column with
`onupdate=datetime.datetime.now` (database.py line 26), so every emitted
UPDATE bumps `updated_at` regardless of the explicit `has_changed` guard.
The columns are exactly those assigned in the update branch: the twelve
content fields (lines 763-774, with the missing-start/end-becomes-NULL
guard), the conditionally written coordinates (lines 777-780), the camera
fields as `updateCameraFields` resolves them (lines 783-811), and
`pushed_to_mqtt` written before the second commit (lines 930-934; the two
commits at lines 814 and 934 share the model's clock). The write-back of
`extra_cameras_json` (line 812) equals the row's own `extra_cameras` for an
existing row and can never net-change, and the explicit
`updated_at = datetime.now()` assignment under `has_changed` is always
accompanied by a net content change, so neither needs a disjunct. -/
def updatedFieldsChanged (cfg : ProcCfg) (ex : TrafficEvent) (ev : ParsedEvent) : Bool :=
  (ex.title != ev.title) || (ex.description != ev.description) ||
  (ex.location != ev.location) || (ex.icon_id != ev.icon_id) ||
  (ex.message_type != ev.message_type) || (ex.severity_code != ev.severity_code) ||
  (ex.severity_text != ev.severity_text) || (ex.road_number != ev.road_number) ||
  (ex.start_time != evStart ev) || (ex.end_time != evEnd ev) ||
  (ex.temporary_limit != ev.temporary_limit) ||
  (ex.traffic_restriction_type != ev.traffic_restriction_type) ||
  (ev.latitude.isSome && (ex.latitude != ev.latitude)) ||
  (ev.longitude.isSome && (ex.longitude != ev.longitude)) ||
  (ex.camera_url != (updateCameraFields cfg ex ev (has_changed ex ev)).1) ||
  (ex.camera_name != (updateCameraFields cfg ex ev (has_changed ex ev)).2.1) ||
  (ex.camera_snapshot != (updateCameraFields cfg ex ev (has_changed ex ev)).2.2) ||
  (ex.pushed_to_mqtt != cfg.mqttConnected)

/-- The update branch of `event_processor` (lines 717-814 plus the shared MQTT
tail): optionally append a version row (pre-update copy), overwrite the content
fields (start/end become NULL when missing in the update), keep coordinates
unless present in the update, apply the camera-field outcome, write
`extra_cameras_json` back (line 812 — a no-op value equal to the row's own
`extra_cameras`), set the MQTT flag. `updated_at` becomes now() through the
explicit assignment when `has_changed` holds (lines 780-781) and, through the
schema's `onupdate=datetime.datetime.now` column default (database.py
line 26), whenever the flush has any net column change
(`updatedFieldsChanged`). Push subscribers are *not* notified for existing
rows (line 937). -/
def updatedRow (cfg : ProcCfg) (ex : TrafficEvent) (ev : ParsedEvent) : TrafficEvent :=
  { ex with
    title := ev.title, description := ev.description, location := ev.location,
    icon_id := ev.icon_id, message_type := ev.message_type,
    severity_code := ev.severity_code, severity_text := ev.severity_text,
    road_number := ev.road_number, start_time := evStart ev, end_time := evEnd ev,
    temporary_limit := ev.temporary_limit,
    traffic_restriction_type := ev.traffic_restriction_type,
    latitude := if ev.latitude.isSome then ev.latitude else ex.latitude,
    longitude := if ev.longitude.isSome then ev.longitude else ex.longitude,
    updated_at := if has_changed ex ev || updatedFieldsChanged cfg ex ev then cfg.now
      else ex.updated_at,
    camera_url := (updateCameraFields cfg ex ev (has_changed ex ev)).1,
    camera_name := (updateCameraFields cfg ex ev (has_changed ex ev)).2.1,
    camera_snapshot := (updateCameraFields cfg ex ev (has_changed ex ev)).2.2,
    extra_cameras := ex.extra_cameras,
    pushed_to_mqtt := cfg.mqttConnected }

def updateExistingEvent (cfg : ProcCfg) (st : PState) (ex : TrafficEvent)
    (ev : ParsedEvent) : PState :=
  { rows := updateFirst (fun r0 => r0.external_id == ev.external_id)
      (fun _ => updatedRow cfg ex ev) st.rows,
    versions := st.versions ++ (if has_changed ex ev then [mkVersion cfg.now ex] else []),
    mqttPublishes := st.mqttPublishes + (if cfg.mqttConnected then 1 else 0),
    pushDeliveries := st.pushDeliveries,
    nextId := st.nextId }

/-- One normalized incident through the store: lookup by `external_id`
(lines 650, 998-style `first()`), then update or insert. -/
def processEvent (cfg : ProcCfg) (st : PState) (ev : ParsedEvent) : PState :=
  match st.rows.find? (fun r => r.external_id == ev.external_id) with
  | some ex => updateExistingEvent cfg st ex ev
  | none => insertNewEvent cfg st ev

/-- One upstream batch through the store, in arrival order. -/
def processBatch (cfg : ProcCfg) (st : PState) (evs : List ParsedEvent) : PState :=
  evs.foldl (processEvent cfg) st

/-- Spec-side (claim C1 as stated): "significant_change is true iff at least
one of title, description, location, severity_code, message_type,
temporary_limit, traffic_restriction_type, start_time, end_time differs from
the stored row" — plain inequality on all nine fields. -/
def significant_claim (ex : TrafficEvent) (ev : ParsedEvent) : Prop :=
  ex.title ≠ ev.title ∨ ex.description ≠ ev.description ∨ ex.location ≠ ev.location ∨
  ex.severity_code ≠ ev.severity_code ∨ ex.message_type ≠ ev.message_type ∨
  ex.temporary_limit ≠ ev.temporary_limit ∨
  ex.traffic_restriction_type ≠ ev.traffic_restriction_type ∨
  ex.start_time ≠ ev.start_time ∨ ex.end_time ≠ ev.end_time

/-- Spec-side (claim C1 as amended): the seven always-compared fields, plus
start/end differences that only count when the update carries a non-empty
value. -/
def significant_spec (ex : TrafficEvent) (ev : ParsedEvent) : Prop :=
  ex.title ≠ ev.title ∨ ex.description ≠ ev.description ∨ ex.location ≠ ev.location ∨
  ex.severity_code ≠ ev.severity_code ∨ ex.message_type ≠ ev.message_type ∨
  ex.temporary_limit ≠ ev.temporary_limit ∨
  ex.traffic_restriction_type ≠ ev.traffic_restriction_type ∨
  (∃ s, ev.start_time = some s ∧ s ≠ "" ∧ ex.start_time ≠ some s) ∨
  (∃ s, ev.end_time = some s ∧ s ≠ "" ∧ ex.end_time ≠ some s)

/-- Spec-side (claim C3 wording): camera re-sync needed iff the entity is new,
or it has no extra cameras recorded, or a recorded extra camera has a null
snapshot, or the coordinates changed. -/
def claim_needs_camera_sync (existing : Option TrafficEvent) (ev : ParsedEvent) : Prop :=
  match existing with
  | none => True
  | some ex =>
    ex.extra_cameras = none ∨
    (∃ c ∈ ex.extra_cameras.getD [], c.snapshot = none) ∨
    (ev.latitude.isSome ∧ ex.latitude ≠ ev.latitude) ∨
    (ev.longitude.isSome ∧ ex.longitude ≠ ev.longitude)

/-- The nine compared fields of a stored row agree with a normalized update
(start/end via the same missing-becomes-NULL guard the writes use). -/
def fieldsSynced (r : TrafficEvent) (ev : ParsedEvent) : Prop :=
  r.title = ev.title ∧ r.description = ev.description ∧ r.location = ev.location ∧
  r.severity_code = ev.severity_code ∧ r.message_type = ev.message_type ∧
  r.temporary_limit = ev.temporary_limit ∧
  r.traffic_restriction_type = ev.traffic_restriction_type ∧
  r.start_time = evStart ev ∧ r.end_time = evEnd ev

/-- The stored row an event maps to, with its fields synced. -/
def syncedIn (rows : List TrafficEvent) (ev : ParsedEvent) : Prop :=
  ∃ r, rows.find? (fun r0 => r0.external_id == ev.external_id) = some r ∧ fieldsSynced r ev

/-- A concrete processing configuration: no cameras, constant distance, 5 km
radius, snapshot oracle always failing, no subscriptions, MQTT connected,
clock "T1". -/
def procCfgEx : ProcCfg := ⟨[], constDist, 5, fun _ => none, [], true, "T1"⟩

/-- Existing row for the C3 evaluation: coordinates (59, 18), one recorded
extra camera with a null snapshot. -/
def exC3 : TrafficEvent :=
  { id := 1, external_id := some "X", event_type := "Situation", title := "T",
    description := none, location := none, icon_id := none, message_type := none,
    severity_code := none, severity_text := none, road_number := none, start_time := none,
    end_time := none, temporary_limit := none, traffic_restriction_type := none,
    latitude := some 59, longitude := some 18, county_no := 1, camera_url := some "u",
    camera_name := some "n", camera_snapshot := some "s",
    extra_cameras := some [⟨some "c", some "cn", none⟩], created_at := "T0",
    updated_at := "T0", pushed_to_mqtt := false }

/-- Incoming update for C3: identical significant fields, moved coordinates
(60, 19). -/
def evC3 : ParsedEvent :=
  ⟨some "X", "T", none, none, none, "Situation", none, none, none, none, none, none, none,
    none, none, some 60, some 19, 1⟩

/-- Store state holding just `exC3`. -/
def stC3 : PState := ⟨[exC3], [], 0, 0, 5⟩

/-- Decidability of the claim-side significance predicate (for concrete
evaluation). -/
instance (ex : TrafficEvent) (ev : ParsedEvent) : Decidable (significant_claim ex ev) := by
  unfold significant_claim
  infer_instance

/-- Decidability of the amended significance predicate. -/
instance (ex : TrafficEvent) (ev : ParsedEvent) : Decidable (significant_spec ex ev) := by
  unfold significant_spec
  infer_instance

/-- Existing row for the C1 counterexample: start time 10:00 stored,
county 7. -/
def exC1 : TrafficEvent :=
  { id := 2, external_id := some "E1", event_type := "Situation", title := "T",
    description := some "D", location := some "L", icon_id := some "roadWork",
    message_type := some "M", severity_code := some 3, severity_text := some "S",
    road_number := some "E4", start_time := some "2025-01-01T10:00",
    end_time := some "2025-01-01T12:00", temporary_limit := none,
    traffic_restriction_type := none, latitude := some 59, longitude := some 18,
    county_no := 7, camera_url := none, camera_name := none, camera_snapshot := none,
    extra_cameras := none, created_at := "T0", updated_at := "T0",
    pushed_to_mqtt := false }

/-- Incoming update for the C1 counterexample: identical to the stored row
except that `start_time` is missing. -/
def evC1 : ParsedEvent :=
  ⟨some "E1", "T", some "D", some "L", some "roadWork", "Situation", none, some "M",
    some 3, some "S", some "E4", none, some "2025-01-01T12:00", none, none, some 59,
    some 18, 7⟩

/-- A genuinely significant update (changed title) used to inspect the version
row that gets appended. -/
def evC1b : ParsedEvent :=
  { evC1 with title := "T2" }

/-- Store state holding just `exC1`. -/
def stC1 : PState := ⟨[exC1], [], 0, 0, 3⟩

/-- The empty initial pipeline state. -/
def pstate0 : PState := ⟨[], [], 0, 0, 1⟩

/-- A `database.RoadCondition` row, restricted to the columns
`road_condition_processor` reads or writes (surface-weather columns and
`updated_at` are untouched by it and omitted). -/
structure RoadCondition where
  id : Option String
  condition_code : Option Nat
  condition_text : Option String
  measure : Option String
  warning : Option String
  cause : Option String
  location_text : Option String
  icon_id : Option String
  road_number : Option String
  start_time : Option String
  end_time : Option String
  latitude : Option ℚ
  longitude : Option ℚ
  county_no : Option Nat
  timestamp : Option String
  camera_url : Option String
  camera_name : Option String
  camera_snapshot : Option String
deriving DecidableEq, Repr

/-- The normalized road-condition dict produced by
`trafikverket.parse_road_condition` (lines 271-284). The processor also reads
the keys `cause`, `location_text` and `icon_id` with `.get`, but the parser
never sets them, so those reads always yield `None` and the keys are not part
of this structure. -/
structure ParsedRoadCondition where
  id : Option String
  condition_code : Option Nat
  condition_text : Option String
  measure : Option String
  warning : Option String
  road_number : Option String
  start_time : Option String
  end_time : Option String
  latitude : Option ℚ
  longitude : Option ℚ
  county_no : Nat
  timestamp : Option String
deriving DecidableEq, Repr

/-- `datetime.fromisoformat(rc['start_time']) if rc.get('start_time') else None`. -/
def rcStartTime (rc : ParsedRoadCondition) : Option String :=
  if pyTruthy rc.start_time then rc.start_time else none

/-- The same guard for the end time. -/
def rcEndTime (rc : ParsedRoadCondition) : Option String :=
  if pyTruthy rc.end_time then rc.end_time else none

/-- The deduplication query of `road_condition_processor` (lines 1002-1012):
equality on road_number, condition_code and county_no, and on start_time only
when the incoming condition carries a truthy one. -/
def rcDedupPred (rc : ParsedRoadCondition) (r : RoadCondition) : Bool :=
  r.road_number == rc.road_number && r.condition_code == rc.condition_code &&
  r.county_no == some rc.county_no &&
  (!pyTruthy rc.start_time || r.start_time == rc.start_time)

/-- `needs_camera_sync` of the road-condition processor (lines 1022-1029):
true for a new row, or when a truthy incoming coordinate differs from the
stored one (Python float truthiness: 0.0 counts as missing). -/
def rcNeedsCameraSync (existing : Option RoadCondition) (rc : ParsedRoadCondition) : Bool :=
  match existing with
  | none => true
  | some ex =>
    (pyTruthyQ rc.latitude && (ex.latitude != rc.latitude)) ||
    (pyTruthyQ rc.longitude && (ex.longitude != rc.longitude))

/-- The camera lookup of the needs-sync branch (lines 1031-1042): primary
nearby camera and, when it has a URL, a snapshot downloaded under
`rc_{target_id}`. -/
def rcCameraLookup (cfg : ProcCfg) (rc : ParsedRoadCondition) (target_id : Option String) :
    Option String × Option String × Option String :=
  let nearby := find_nearby_cameras rc.latitude rc.longitude cfg.cams rc.road_number
    cfg.max_dist 5 cfg.d
  match nearby.head? with
  | none => (none, none, none)
  | some p =>
    (p.1.url, p.1.name,
      if pyTruthy p.1.url then cfg.snap ("rc_" ++ strOfOptStr target_id) else none)

/-- The in-place update of an existing road-condition row (lines 1046-1063):
content fields overwritten (missing start/end/timestamp become NULL / now),
coordinates and county untouched, camera fields only under needs-sync with a
camera URL. -/
def applyRoadCondition (cfg : ProcCfg) (rc : ParsedRoadCondition) (needs : Bool)
    (cam : Option String × Option String × Option String) (ex : RoadCondition) :
    RoadCondition :=
  let base := { ex with
    condition_code := rc.condition_code, condition_text := rc.condition_text,
    measure := rc.measure, warning := rc.warning, cause := none,
    location_text := none, icon_id := none, road_number := rc.road_number,
    start_time := rcStartTime rc, end_time := rcEndTime rc,
    timestamp := if pyTruthy rc.timestamp then rc.timestamp else some cfg.now }
  if needs && pyTruthy cam.1 then
    { base with camera_url := cam.1, camera_name := cam.2.1, camera_snapshot := cam.2.2 }
  else base

/-- The insert of a new road-condition row (lines 1066-1087). -/
def newRoadCondition (cfg : ProcCfg) (rc : ParsedRoadCondition)
    (cam : Option String × Option String × Option String) : RoadCondition :=
  { id := rc.id, condition_code := rc.condition_code, condition_text := rc.condition_text,
    measure := rc.measure, warning := rc.warning, cause := none, location_text := none,
    icon_id := none, road_number := rc.road_number, start_time := rcStartTime rc,
    end_time := rcEndTime rc, latitude := rc.latitude, longitude := rc.longitude,
    county_no := some rc.county_no,
    timestamp := if pyTruthy rc.timestamp then rc.timestamp else some cfg.now,
    camera_url := cam.1, camera_name := cam.2.1, camera_snapshot := cam.2.2 }

/-- One road condition through `road_condition_processor` (lines 996-1087),
restricted to its effect on the `road_conditions` rows: lookup by id, else the
dedup query, update the first match in place, insert only when both fail. -/
def road_condition_processor_step (cfg : ProcCfg) (rows : List RoadCondition)
    (rc : ParsedRoadCondition) : List RoadCondition :=
  match rows.find? (fun r => r.id == rc.id) with
  | some ex =>
    let needs := rcNeedsCameraSync (some ex) rc
    let cam := if needs then rcCameraLookup cfg rc ex.id else (none, none, none)
    updateFirst (fun r => r.id == rc.id) (applyRoadCondition cfg rc needs cam) rows
  | none =>
    match rows.find? (rcDedupPred rc) with
    | some ex =>
      let needs := rcNeedsCameraSync (some ex) rc
      let cam := if needs then rcCameraLookup cfg rc ex.id else (none, none, none)
      updateFirst (rcDedupPred rc) (applyRoadCondition cfg rc needs cam) rows
    | none =>
      rows ++ [newRoadCondition cfg rc (rcCameraLookup cfg rc rc.id)]

/-- Spec-side (claim C2 wording): exact agreement on the 4-tuple
(road_number, condition_code, county_no, start_time). -/
def fourTupleMatch (rc : ParsedRoadCondition) (r : RoadCondition) : Prop :=
  r.road_number = rc.road_number ∧ r.condition_code = rc.condition_code ∧
  r.county_no = some rc.county_no ∧ r.start_time = rcStartTime rc

/-- Decidability of the 4-tuple match, for concrete evaluation. -/
instance (rc : ParsedRoadCondition) (r : RoadCondition) : Decidable (fourTupleMatch rc r) := by
  unfold fourTupleMatch
  infer_instance

/-- Road-condition row A: id 100, (E4, code 2, county 1, start 06:00). -/
def rcRowA : RoadCondition :=
  { id := some "100", condition_code := some 2, condition_text := some "x", measure := none,
    warning := some "oldA", cause := none, location_text := none, icon_id := none,
    road_number := some "E4", start_time := some "2025-11-14T06:00", end_time := none,
    latitude := none, longitude := none, county_no := some 1, timestamp := none,
    camera_url := none, camera_name := none, camera_snapshot := none }

/-- Road-condition row B: id 200, same 3-tuple as A but a NULL start time. -/
def rcRowB : RoadCondition :=
  { rcRowA with id := some "200", warning := some "oldB", start_time := none }

/-- Incoming road condition with unknown id 999, no start time, matching row B
on the exact 4-tuple (start NULL = NULL) but only the 3-tuple of row A. -/
def rcIncoming : ParsedRoadCondition :=
  { id := some "999", condition_code := some 2, condition_text := some "x", measure := none,
    warning := some "NEW", road_number := some "E4", start_time := none, end_time := none,
    latitude := none, longitude := none, county_no := 1, timestamp := some "TS" }

/-- Incoming road condition with unknown id 999 carrying the start time
06:00, an exact 4-tuple match of row A. -/
def rcIncoming2 : ParsedRoadCondition :=
  { rcIncoming with start_time := some "2025-11-14T06:00" }

/-- Claim C4: for every incident delivered as a push notification to a
subscription, the subscription's `topic_realtid` flag is enabled, the incident's
county is a member of the subscription's configured county list whenever that
list is non-empty, and the severity code is at least `min_severity`; every
subscription failing one of these predicates is skipped. -/
theorem notify_subscribers_filter_correct
    (subs : List PushSubscription) (data : PushData) (s : Nat)
    (hs : data.severity_code = some s) (sub : PushSubscription) :
    (sub ∈ notify_subscribers subs data "event" →
      sub ∈ subs ∧ sub.topic_realtid ≠ 0 ∧
      (allowedCounties sub ≠ [] → strOfOptNat data.county_no ∈ allowedCounties sub) ∧
      sub.min_severity ≤ s) ∧
    ((sub.topic_realtid = 0 ∨
      (allowedCounties sub ≠ [] ∧ strOfOptNat data.county_no ∉ allowedCounties sub) ∨
      s < sub.min_severity) →
      sub ∉ notify_subscribers subs data "event") := by
  have hchar : subscriberAllowed data "event" sub = true ↔
      ((allowedCounties sub = [] ∨ strOfOptNat data.county_no ∈ allowedCounties sub) ∧
       ¬sub.topic_realtid = 0 ∧ sub.min_severity ≤ s) := by
    simp [subscriberAllowed, hs]
  constructor
  · intro hmem
    rw [notify_subscribers, List.mem_filter] at hmem
    obtain ⟨hin, hallow⟩ := hmem
    rw [hchar] at hallow
    obtain ⟨hcounty, htopic, hsev⟩ := hallow
    refine ⟨hin, htopic, ?_, hsev⟩
    intro hne
    rcases hcounty with h | h
    · exact absurd h hne
    · exact h
  · intro hfail hmem
    rw [notify_subscribers, List.mem_filter] at hmem
    obtain ⟨_, hallow⟩ := hmem
    rw [hchar] at hallow
    obtain ⟨hcounty, htopic, hsev⟩ := hallow
    rcases hfail with h0 | ⟨hne, hnm⟩ | hlt
    · exact htopic h0
    · rcases hcounty with h | h
      · exact hne h
      · exact hnm h
    · omega

/-- Witness for C4, instantiating scenario S5 of the spec: a subscription with
counties "4", min_severity 3 and topic_realtid enabled receives no delivery for
(county 1, severity 5) nor for (county 4, severity 2), and exactly one delivery
for (county 4, severity 4). -/
theorem notify_subscribers_filter_correct_witness :
    (PushData.mk (some 1) (some 5)).severity_code = some 5 ∧
    (notify_subscribers [⟨"ep", some "4", 3, 1, 1⟩] ⟨some 1, some 5⟩ "event" = [] ∧
     notify_subscribers [⟨"ep", some "4", 3, 1, 1⟩] ⟨some 4, some 2⟩ "event" = [] ∧
     notify_subscribers [⟨"ep", some "4", 3, 1, 1⟩] ⟨some 4, some 4⟩ "event" =
       [⟨"ep", some "4", 3, 1, 1⟩]) ∧
    ((⟨"ep", some "4", 3, 1, 1⟩ : PushSubscription) ∈
        notify_subscribers [⟨"ep", some "4", 3, 1, 1⟩] ⟨some 4, some 4⟩ "event" →
      (⟨"ep", some "4", 3, 1, 1⟩ : PushSubscription) ∈ [(⟨"ep", some "4", 3, 1, 1⟩ : PushSubscription)] ∧
      (⟨"ep", some "4", 3, 1, 1⟩ : PushSubscription).topic_realtid ≠ 0 ∧
      (allowedCounties ⟨"ep", some "4", 3, 1, 1⟩ ≠ [] →
        strOfOptNat (some 4) ∈ allowedCounties ⟨"ep", some "4", 3, 1, 1⟩) ∧
      (⟨"ep", some "4", 3, 1, 1⟩ : PushSubscription).min_severity ≤ 4) :=
  ⟨by decide, by decide,
    (notify_subscribers_filter_correct [⟨"ep", some "4", 3, 1, 1⟩] ⟨some 4, some 4⟩ 4 rfl
      ⟨"ep", some "4", 3, 1, 1⟩).1⟩

/-- Claim C10: for an incident whose `severity_code` is absent (`None`), the
push filter substitutes 0 for the missing severity, so no subscription with
`min_severity ≥ 1` (in particular the schema default 3) ever receives the
incident; the missing severity silently suppresses delivery instead of raising. -/
theorem null_severity_suppresses_push
    (subs : List PushSubscription) (data : PushData) (sub : PushSubscription)
    (hs : data.severity_code = none) (hmin : 1 ≤ sub.min_severity) :
    sub ∉ notify_subscribers subs data "event" := by
  intro hmem
  rw [notify_subscribers, List.mem_filter] at hmem
  obtain ⟨_, hallow⟩ := hmem
  have hchar : subscriberAllowed data "event" sub = true ↔
      ((allowedCounties sub = [] ∨ strOfOptNat data.county_no ∈ allowedCounties sub) ∧
       ¬sub.topic_realtid = 0 ∧ sub.min_severity ≤ 0) := by
    simp [subscriberAllowed, hs]
  rw [hchar] at hallow
  omega

/-- Witness for C10: a subscription with the schema-default `min_severity = 3`,
matching county and enabled topic still gets no delivery when the incident's
severity is `None`. -/
theorem null_severity_suppresses_push_witness :
    (PushData.mk (some 4) none).severity_code = none ∧
    1 ≤ (PushSubscription.mk "ep" (some "4") 3 1 1).min_severity ∧
    (⟨"ep", some "4", 3, 1, 1⟩ : PushSubscription) ∉
      notify_subscribers [⟨"ep", some "4", 3, 1, 1⟩] ⟨some 4, none⟩ "event" :=
  ⟨rfl, by decide,
    null_severity_suppresses_push [⟨"ep", some "4", 3, 1, 1⟩] ⟨some 4, none⟩
      ⟨"ep", some "4", 3, 1, 1⟩ rfl (by decide)⟩

/-- Claim C6: the fullsize response is accepted iff status 200 and body at
least 5000 bytes, in which case its body is stored under the relative path
`{county_no}/{event_id}_{unix_ts}.jpg`; otherwise, when the base URL differs
from the fullsize URL the base URL is retried, and the final response is stored
under that path iff status 200 and at least 1500 bytes (any smaller final body
is rejected with no path returned). -/
theorem download_camera_snapshot_spec (net : String → HttpResponse)
    (url event_id fsu : String) (county_no : Nat) (explicit_fullsize_url : Option String)
    (nowTs : Nat) (hurl : url ≠ "")
    (hfsu : fsu = (pyOr explicit_fullsize_url (some url)).getD url) :
    ((net fsu).status = 200 ∧ 5000 ≤ (net fsu).body.length →
      download_camera_snapshot net url event_id county_no explicit_fullsize_url nowTs =
        some (snapshotRelativePath county_no event_id nowTs, (net fsu).body)) ∧
    (¬((net fsu).status = 200 ∧ 5000 ≤ (net fsu).body.length) → fsu ≠ url →
      download_camera_snapshot net url event_id county_no explicit_fullsize_url nowTs =
        if (net url).status = 200 ∧ 1500 ≤ (net url).body.length then
          some (snapshotRelativePath county_no event_id nowTs, (net url).body) else none) ∧
    (¬((net fsu).status = 200 ∧ 5000 ≤ (net fsu).body.length) → fsu = url →
      download_camera_snapshot net url event_id county_no explicit_fullsize_url nowTs =
        if (net fsu).status = 200 ∧ 1500 ≤ (net fsu).body.length then
          some (snapshotRelativePath county_no event_id nowTs, (net fsu).body) else none) := by
  have hfin : ∀ (p : String) (r : HttpResponse),
      finalizeDownload p r =
        if r.status = 200 ∧ 1500 ≤ r.body.length then some (p, r.body) else none := by
    intro p r
    rw [finalizeDownload]
    by_cases h1 : r.status = 200
    · by_cases h2 : 1500 ≤ r.body.length
      · have : ¬ r.body.length < 1500 := by omega
        simp [h1, this, h2]
      · have : r.body.length < 1500 := by omega
        simp [h1, this, h2]
    · simp [h1]
  have hvalid_iff : ∀ r : HttpResponse,
      is_valid_fullsize r = true ↔ (r.status = 200 ∧ 5000 ≤ r.body.length) := by
    intro r
    simp [is_valid_fullsize]
  refine ⟨?_, ?_, ?_⟩
  · rintro hv
    rw [download_camera_snapshot, if_neg hurl, ← hfsu, chosenResponse]
    have : is_valid_fullsize (net fsu) = true := (hvalid_iff _).mpr hv
    rw [this]
    simp only [Bool.not_true, Bool.false_and, Bool.false_eq_true, if_false]
    rw [hfin]
    rw [if_pos ⟨hv.1, by omega⟩]
  · intro hv hne
    rw [download_camera_snapshot, if_neg hurl, ← hfsu, chosenResponse]
    have h1 : is_valid_fullsize (net fsu) = false := by
      cases h : is_valid_fullsize (net fsu)
      · rfl
      · exact absurd ((hvalid_iff _).mp h) hv
    have h2 : (fsu != url) = true := by simpa using hne
    rw [h1, h2]
    simp only [Bool.not_false, Bool.true_and, if_true]
    exact hfin _ _
  · intro hv heq
    rw [download_camera_snapshot, if_neg hurl, ← hfsu, chosenResponse]
    have h2 : (fsu != url) = false := by simp [heq]
    rw [h2]
    simp only [Bool.and_false, Bool.false_eq_true, if_false]
    exact hfin _ _

/-- Witness for C6, instantiating scenario S6: with 4 KB at the fullsize URL
and 12 KB at the base URL, the stored file is the 12 KB body and the relative
path is `1/E_99.jpg`. -/
theorem download_camera_snapshot_spec_witness :
    ("u" : String) ≠ "" ∧
    ("f" : String) = (pyOr (some "f") (some "u")).getD "u" ∧
    download_camera_snapshot netS6 "u" "E" 1 (some "f") 99 =
      some ("1/E_99.jpg", List.replicate 12288 7) := by
  refine ⟨by decide, by decide, ?_⟩
  have h := (download_camera_snapshot_spec netS6 "u" "E" "f" 1 (some "f") 99
    (by decide) (by decide)).2.1
  have hf : netS6 "f" = ⟨200, List.replicate 4096 5⟩ := rfl
  have hu : netS6 "u" = ⟨200, List.replicate 12288 7⟩ := rfl
  have hflen : (netS6 "f").body.length = 4096 := by
    rw [hf]
    exact List.length_replicate _ _
  have hulen : (netS6 "u").body.length = 12288 := by
    rw [hu]
    exact List.length_replicate _ _
  have hinv : ¬((netS6 "f").status = 200 ∧ 5000 ≤ (netS6 "f").body.length) := by
    omega
  have hr2 : (netS6 "u").status = 200 ∧ 1500 ≤ (netS6 "u").body.length := by
    refine ⟨rfl, by omega⟩
  have hres := h hinv (by decide)
  rw [if_pos hr2, hu] at hres
  have hpath : snapshotRelativePath 1 "E" 99 = "1/E_99.jpg" := by decide
  rw [hpath] at hres
  exact hres

/-- `pyStrLtChars` decides the core lexicographic order `List.lt`. -/
theorem pyStrLtChars_iff : ∀ as bs : List Char, pyStrLtChars as bs = true ↔ List.lt as bs := by
  intro as
  induction as with
  | nil =>
    intro bs
    cases bs with
    | nil =>
      constructor
      · intro h; exact absurd h (by simp [pyStrLtChars])
      · intro h; nomatch h
    | cons b bs =>
      constructor
      · intro _; exact List.lt.nil b bs
      · intro _; rfl
  | cons a as ih =>
    intro bs
    cases bs with
    | nil =>
      constructor
      · intro h; exact absurd h (by simp [pyStrLtChars])
      · intro h; nomatch h
    | cons b bs =>
      rw [pyStrLtChars]
      by_cases hab : a < b
      · simp only [if_pos hab]
        constructor
        · intro _; exact List.lt.head _ _ hab
        · intro _; trivial
      · simp only [if_neg hab]
        by_cases hba : b < a
        · simp only [if_pos hba]
          constructor
          · intro h; exact absurd h (by simp)
          · intro h
            cases h with
            | head _ _ h1 => exact absurd h1 hab
            | tail h1 h2 h3 => exact absurd hba h2
        · simp only [if_neg hba]
          rw [ih bs]
          constructor
          · intro h; exact List.lt.tail hab hba h
          · intro h
            cases h with
            | head _ _ h1 => exact absurd h1 hab
            | tail h1 h2 h3 => exact h3

/-- `pyStrLt` agrees with Lean's `String` order (both are lexicographic by
code point, which is also Python's ordering on these strings). -/
theorem pyStrLt_iff_lt (a b : String) : pyStrLt a b = true ↔ a < b := by
  rw [String.lt_iff_toList_lt]
  show pyStrLt a b = true ↔ List.Lex (fun c1 c2 => c1 < c2) a.toList b.toList
  rw [← List.lt_iff_lex_lt]
  exact pyStrLtChars_iff a.data b.data

/-- Claim C5: the claim is refuted by the code on the unparseable-JSON case.
This theorem evaluates the model at the failing input: a stream consisting of a
good batch, a record whose JSON does not parse, and another good batch. The
drain loop processes only the first batch and terminates (flag `true`) because
`parse_situation`'s exception handler raises `UnboundLocalError`; without the
malformed record the same loop processes both batches and keeps running
(flag `false`). -/
theorem event_processor_stops_on_malformed_json :
    (event_processor_drain
        [RawStreamItem.batch [sitS1], RawStreamItem.malformedJson,
         RawStreamItem.batch [sitS1]]).2 = true ∧
    (event_processor_drain
        [RawStreamItem.batch [sitS1], RawStreamItem.malformedJson,
         RawStreamItem.batch [sitS1]]).1.length = 1 ∧
    (parse_situation RawStreamItem.malformedJson matches Except.error _) ∧
    (event_processor_drain [RawStreamItem.batch [sitS1], RawStreamItem.batch [sitS1]]).2 = false ∧
    (event_processor_drain
        [RawStreamItem.batch [sitS1], RawStreamItem.batch [sitS1]]).1.length = 2 := by
  refine ⟨rfl, rfl, ?_, rfl, rfl⟩
  constructor

/-- Unfolding lemma for `pyTruthy` at `none`. -/
theorem pyTruthy_none : pyTruthy none = false := rfl

/-- Unfolding lemma for `pyTruthy` at `some`. -/
theorem pyTruthy_some (s : String) : pyTruthy (some s) = !s.isEmpty := rfl

/-- The one-pass merge of `parse_situation` equals truthy-filtering followed by
first-seen deduplication. -/
theorem mergeUnique_eq_dedup (get : Deviation → Option String) (devs : List Deviation) :
    mergeUnique get devs = firstSeenDedup (truthyVals get devs) := by
  have aux : ∀ (l : List Deviation) (acc : List String),
      l.foldl (fun acc dv =>
        match get dv with
        | some s => if !s.isEmpty && !acc.contains s then acc ++ [s] else acc
        | none => acc) acc =
      (truthyVals get l).foldl (fun acc s => if acc.contains s then acc else acc ++ [s]) acc := by
    intro l
    induction l with
    | nil => intro acc; rfl
    | cons d rest ih =>
      intro acc
      have hrhs : truthyVals get (d :: rest) =
          (match get d with
            | some s => if s.isEmpty then none else some s
            | none => none).toList ++ truthyVals get rest := by
        rw [truthyVals, List.filterMap_cons, truthyVals]
        cases get d with
        | none => rfl
        | some s =>
          simp only
          cases s.isEmpty <;> simp
      rw [List.foldl_cons, hrhs]
      cases hget : get d with
      | none =>
        simp only [hget, Option.toList, List.nil_append]
        exact ih acc
      | some s =>
        simp only [hget]
        cases hemp : s.isEmpty with
        | true =>
          simp only [hemp, Bool.not_true, Bool.false_and, Bool.false_eq_true, if_false,
            if_true, Option.toList, List.nil_append]
          exact ih acc
        | false =>
          simp only [hemp, Bool.not_false, Bool.true_and, Bool.false_eq_true, if_false,
            Option.toList, List.singleton_append, List.foldl_cons]
          cases hc : acc.contains s with
          | true =>
            simp only [hc, Bool.not_true, Bool.false_eq_true, if_false, if_true]
            exact ih acc
          | false =>
            simp only [hc, Bool.not_false, if_true, Bool.false_eq_true, if_false]
            exact ih (acc ++ [s])
  rw [mergeUnique, firstSeenDedup, aux]

/-- A truthy field value of a member deviation appears in `truthyVals`. -/
theorem mem_truthyVals {get : Deviation → Option String} {devs : List Deviation}
    {dv : Deviation} {s : String} (hmem : dv ∈ devs) (hget : get dv = some s)
    (hs : s.isEmpty = false) : s ∈ truthyVals get devs := by
  rw [truthyVals, List.mem_filterMap]
  refine ⟨dv, hmem, ?_⟩
  rw [hget]
  simp [hs]

/-- Folding the dedup insertion never shrinks the accumulator. -/
theorem foldl_dedup_length (l : List String) :
    ∀ acc : List String,
      acc.length ≤ (l.foldl (fun acc s => if acc.contains s then acc else acc ++ [s]) acc).length := by
  induction l with
  | nil => intro acc; exact le_refl _
  | cons s rest ih =>
    intro acc
    rw [List.foldl_cons]
    cases hc : acc.contains s with
    | true =>
      simp only [if_pos rfl]
      exact ih acc
    | false =>
      simp only [Bool.false_eq_true, if_false]
      calc acc.length ≤ (acc ++ [s]).length := by simp
        _ ≤ _ := ih (acc ++ [s])

/-- `firstSeenDedup` of a non-empty list is non-empty. -/
theorem firstSeenDedup_ne_nil {l : List String} (h : l ≠ []) : firstSeenDedup l ≠ [] := by
  cases l with
  | nil => exact absurd rfl h
  | cons s rest =>
    rw [firstSeenDedup, List.foldl_cons]
    have h0 : ([] : List String).contains s = false := rfl
    rw [h0]
    simp only [Bool.false_eq_true, if_false, List.nil_append]
    intro hnil
    have := foldl_dedup_length rest [s]
    rw [hnil] at this
    simp at this

/-- Characterization of the earliest-start fold of `parse_situation`: either
there is no truthy start time anywhere (and a falsy accumulator is returned
unchanged), or the result is a truthy value that bounds every truthy start time
from below and is itself the accumulator or one of the start times. -/
theorem foldStartTime_spec (devs : List Deviation) :
    ∀ init : Option String,
      (foldStartTime devs init = init ∧ pyTruthy init = false ∧
        truthyVals (fun d => d.startTime) devs = []) ∨
      (∃ m : String, foldStartTime devs init = some m ∧ m.isEmpty = false ∧
        (some m = init ∨ m ∈ truthyVals (fun d => d.startTime) devs) ∧
        (∀ s ∈ truthyVals (fun d => d.startTime) devs, m ≤ s) ∧
        (∀ i : String, init = some i → i.isEmpty = false → m ≤ i)) := by
  induction devs with
  | nil =>
    intro init
    cases hinit : pyTruthy init with
    | false => exact Or.inl ⟨rfl, rfl, rfl⟩
    | true =>
      right
      cases init with
      | none => exact absurd hinit (by simp [pyTruthy])
      | some i =>
        have hi : i.isEmpty = false := by
          rw [pyTruthy_some] at hinit
          cases h : i.isEmpty
          · rfl
          · rw [h] at hinit; exact absurd hinit (by simp)
        refine ⟨i, rfl, hi, Or.inl rfl, ?_, ?_⟩
        · intro s hs
          simp [truthyVals] at hs
        · intro j hj _
          cases hj
          exact le_refl i
  | cons d rest ih =>
    intro init
    have hstep : foldStartTime (d :: rest) init =
        foldStartTime rest
          (if pyTruthy d.startTime && (!pyTruthy init || pyStrLt (d.startTime.getD "") (init.getD "")) then
            d.startTime else init) := by
      rw [foldStartTime, List.foldl_cons, foldStartTime]
    have htv : truthyVals (fun dv => dv.startTime) (d :: rest) =
        (match d.startTime with
          | some s => if s.isEmpty then none else some s
          | none => none).toList ++ truthyVals (fun dv => dv.startTime) rest := by
      rw [truthyVals, List.filterMap_cons, truthyVals]
      cases d.startTime with
      | none => rfl
      | some s =>
        simp only
        cases s.isEmpty <;> simp
    cases htruthy : pyTruthy d.startTime with
    | false =>
      have hcond : (pyTruthy d.startTime &&
          (!pyTruthy init || pyStrLt (d.startTime.getD "") (init.getD ""))) = false := by
        rw [htruthy]; rfl
      rw [hcond] at hstep
      simp only [Bool.false_eq_true, if_false] at hstep
      have htv2 : truthyVals (fun dv => dv.startTime) (d :: rest) =
          truthyVals (fun dv => dv.startTime) rest := by
        rw [htv]
        cases hd : d.startTime with
        | none => rfl
        | some s =>
          have : s.isEmpty = true := by
            rw [hd, pyTruthy_some] at htruthy
            cases h : s.isEmpty
            · rw [h] at htruthy; exact absurd htruthy (by simp)
            · rfl
          simp [this]
      rw [hstep, htv2]
      exact ih init
    | true =>
      obtain ⟨sv, hsv, hsvne⟩ : ∃ sv, d.startTime = some sv ∧ sv.isEmpty = false := by
        cases hd : d.startTime with
        | none => rw [hd] at htruthy; exact absurd htruthy (by simp [pyTruthy])
        | some s =>
          refine ⟨s, rfl, ?_⟩
          rw [hd, pyTruthy_some] at htruthy
          cases h : s.isEmpty
          · rfl
          · rw [h] at htruthy; exact absurd htruthy (by simp)
      have htv2 : truthyVals (fun dv => dv.startTime) (d :: rest) =
          sv :: truthyVals (fun dv => dv.startTime) rest := by
        rw [htv, hsv]
        simp [hsvne]
      cases hcond : (pyTruthy d.startTime &&
          (!pyTruthy init || pyStrLt (d.startTime.getD "") (init.getD ""))) with
      | true =>
        rw [hcond] at hstep
        simp only [if_pos rfl] at hstep
        rw [hsv] at hstep
        rcases ih (some sv) with ⟨_, habs, _⟩ | ⟨m, hm, hmne, hmmem, hmlb, hminit⟩
        · rw [pyTruthy_some, hsvne] at habs
          exact absurd habs (by simp)
        · right
          refine ⟨m, by rw [hstep]; exact hm, hmne, ?_, ?_, ?_⟩
          · right
            rw [htv2]
            rcases hmmem with h | h
            · cases h; exact List.mem_cons_self _ _
            · exact List.mem_cons_of_mem _ h
          · intro s hs
            rw [htv2] at hs
            rcases List.mem_cons.mp hs with h | h
            · cases h; exact hminit sv rfl hsvne
            · exact hmlb s h
          · intro i hi hine
            cases hi
            have hlt : sv < i := by
              rw [htruthy] at hcond
              rw [pyTruthy_some, hine] at hcond
              simp only [Bool.true_and, Bool.not_true, Bool.not_false, Bool.false_or, hsv,
                Option.getD_some] at hcond
              exact (pyStrLt_iff_lt sv i).mp (by simpa using hcond)
            exact le_trans (hminit sv rfl hsvne) (le_of_lt hlt)
      | false =>
        rw [hcond] at hstep
        simp only [Bool.false_eq_true, if_false] at hstep
        rw [htruthy] at hcond
        simp only [Bool.true_and] at hcond
        obtain ⟨iv, hiv, hivne, hile⟩ : ∃ iv, init = some iv ∧ iv.isEmpty = false ∧ iv ≤ sv := by
          cases hinit : pyTruthy init with
          | false => rw [hinit] at hcond; exact absurd hcond (by simp)
          | true =>
            cases init with
            | none => exact absurd hinit (by simp [pyTruthy])
            | some i =>
              have hine : i.isEmpty = false := by
                rw [pyTruthy_some] at hinit
                cases h : i.isEmpty
                · rfl
                · rw [h] at hinit; exact absurd hinit (by simp)
              refine ⟨i, rfl, hine, ?_⟩
              rw [hinit] at hcond
              simp only [Bool.not_true, Bool.false_or, hsv, Option.getD_some] at hcond
              have : ¬ (sv < i) := by
                intro hlt
                rw [(pyStrLt_iff_lt sv i).mpr hlt] at hcond
                exact absurd hcond (by simp)
              exact le_of_not_lt this
        rcases ih init with ⟨_, habs, _⟩ | ⟨m, hm, hmne, hmmem, hmlb, hminit⟩
        · rw [hiv, pyTruthy_some, hivne] at habs
          exact absurd habs (by simp)
        · right
          refine ⟨m, by rw [hstep]; exact hm, hmne, ?_, ?_, hminit⟩
          · rw [htv2]
            rcases hmmem with h | h
            · exact Or.inl h
            · exact Or.inr (List.mem_cons_of_mem _ h)
          · intro s hs
            rw [htv2] at hs
            rcases List.mem_cons.mp hs with h | h
            · cases h
              exact le_trans (hminit iv hiv hivne) hile
            · exact hmlb s h

/-- Characterization of the latest-end fold of `parse_situation`, dual to
`foldStartTime_spec`: the result bounds every truthy end time from above. -/
theorem foldEndTime_spec (devs : List Deviation) :
    ∀ init : Option String,
      (foldEndTime devs init = init ∧ pyTruthy init = false ∧
        truthyVals (fun d => d.endTime) devs = []) ∨
      (∃ m : String, foldEndTime devs init = some m ∧ m.isEmpty = false ∧
        (some m = init ∨ m ∈ truthyVals (fun d => d.endTime) devs) ∧
        (∀ s ∈ truthyVals (fun d => d.endTime) devs, s ≤ m) ∧
        (∀ i : String, init = some i → i.isEmpty = false → i ≤ m)) := by
  induction devs with
  | nil =>
    intro init
    cases hinit : pyTruthy init with
    | false => exact Or.inl ⟨rfl, rfl, rfl⟩
    | true =>
      right
      cases init with
      | none => exact absurd hinit (by simp [pyTruthy])
      | some i =>
        have hi : i.isEmpty = false := by
          rw [pyTruthy_some] at hinit
          cases h : i.isEmpty
          · rfl
          · rw [h] at hinit; exact absurd hinit (by simp)
        refine ⟨i, rfl, hi, Or.inl rfl, ?_, ?_⟩
        · intro s hs
          simp [truthyVals] at hs
        · intro j hj _
          cases hj
          exact le_refl i
  | cons d rest ih =>
    intro init
    have hstep : foldEndTime (d :: rest) init =
        foldEndTime rest
          (if pyTruthy d.endTime && (!pyTruthy init || pyStrLt (init.getD "") (d.endTime.getD "")) then
            d.endTime else init) := by
      rw [foldEndTime, List.foldl_cons, foldEndTime]
    have htv : truthyVals (fun dv => dv.endTime) (d :: rest) =
        (match d.endTime with
          | some s => if s.isEmpty then none else some s
          | none => none).toList ++ truthyVals (fun dv => dv.endTime) rest := by
      rw [truthyVals, List.filterMap_cons, truthyVals]
      cases d.endTime with
      | none => rfl
      | some s =>
        simp only
        cases s.isEmpty <;> simp
    cases htruthy : pyTruthy d.endTime with
    | false =>
      have hcond : (pyTruthy d.endTime &&
          (!pyTruthy init || pyStrLt (init.getD "") (d.endTime.getD ""))) = false := by
        rw [htruthy]; rfl
      rw [hcond] at hstep
      simp only [Bool.false_eq_true, if_false] at hstep
      have htv2 : truthyVals (fun dv => dv.endTime) (d :: rest) =
          truthyVals (fun dv => dv.endTime) rest := by
        rw [htv]
        cases hd : d.endTime with
        | none => rfl
        | some s =>
          have : s.isEmpty = true := by
            rw [hd, pyTruthy_some] at htruthy
            cases h : s.isEmpty
            · rw [h] at htruthy; exact absurd htruthy (by simp)
            · rfl
          simp [this]
      rw [hstep, htv2]
      exact ih init
    | true =>
      obtain ⟨sv, hsv, hsvne⟩ : ∃ sv, d.endTime = some sv ∧ sv.isEmpty = false := by
        cases hd : d.endTime with
        | none => rw [hd] at htruthy; exact absurd htruthy (by simp [pyTruthy])
        | some s =>
          refine ⟨s, rfl, ?_⟩
          rw [hd, pyTruthy_some] at htruthy
          cases h : s.isEmpty
          · rfl
          · rw [h] at htruthy; exact absurd htruthy (by simp)
      have htv2 : truthyVals (fun dv => dv.endTime) (d :: rest) =
          sv :: truthyVals (fun dv => dv.endTime) rest := by
        rw [htv, hsv]
        simp [hsvne]
      cases hcond : (pyTruthy d.endTime &&
          (!pyTruthy init || pyStrLt (init.getD "") (d.endTime.getD ""))) with
      | true =>
        rw [hcond] at hstep
        simp only [if_pos rfl] at hstep
        rw [hsv] at hstep
        rcases ih (some sv) with ⟨_, habs, _⟩ | ⟨m, hm, hmne, hmmem, hmub, hminit⟩
        · rw [pyTruthy_some, hsvne] at habs
          exact absurd habs (by simp)
        · right
          refine ⟨m, by rw [hstep]; exact hm, hmne, ?_, ?_, ?_⟩
          · right
            rw [htv2]
            rcases hmmem with h | h
            · cases h; exact List.mem_cons_self _ _
            · exact List.mem_cons_of_mem _ h
          · intro s hs
            rw [htv2] at hs
            rcases List.mem_cons.mp hs with h | h
            · cases h; exact hminit sv rfl hsvne
            · exact hmub s h
          · intro i hi hine
            cases hi
            have hlt : i < sv := by
              rw [htruthy] at hcond
              rw [pyTruthy_some, hine] at hcond
              simp only [Bool.true_and, Bool.not_true, Bool.not_false, Bool.false_or, hsv,
                Option.getD_some] at hcond
              exact (pyStrLt_iff_lt i sv).mp (by simpa using hcond)
            exact le_trans (le_of_lt hlt) (hminit sv rfl hsvne)
      | false =>
        rw [hcond] at hstep
        simp only [Bool.false_eq_true, if_false] at hstep
        rw [htruthy] at hcond
        simp only [Bool.true_and] at hcond
        obtain ⟨iv, hiv, hivne, hile⟩ : ∃ iv, init = some iv ∧ iv.isEmpty = false ∧ sv ≤ iv := by
          cases hinit : pyTruthy init with
          | false => rw [hinit] at hcond; exact absurd hcond (by simp)
          | true =>
            cases init with
            | none => exact absurd hinit (by simp [pyTruthy])
            | some i =>
              have hine : i.isEmpty = false := by
                rw [pyTruthy_some] at hinit
                cases h : i.isEmpty
                · rfl
                · rw [h] at hinit; exact absurd hinit (by simp)
              refine ⟨i, rfl, hine, ?_⟩
              rw [hinit] at hcond
              simp only [Bool.not_true, Bool.false_or, hsv, Option.getD_some] at hcond
              have : ¬ (i < sv) := by
                intro hlt
                rw [(pyStrLt_iff_lt i sv).mpr hlt] at hcond
                exact absurd hcond (by simp)
              exact le_of_not_lt this
        rcases ih init with ⟨_, habs, _⟩ | ⟨m, hm, hmne, hmmem, hmub, hminit⟩
        · rw [hiv, pyTruthy_some, hivne] at habs
          exact absurd habs (by simp)
        · right
          refine ⟨m, by rw [hstep]; exact hm, hmne, ?_, ?_, hminit⟩
          · rw [htv2]
            rcases hmmem with h | h
            · exact Or.inl h
            · exact Or.inr (List.mem_cons_of_mem _ h)
          · intro s hs
            rw [htv2] at hs
            rcases List.mem_cons.mp hs with h | h
            · cases h
              exact le_trans hile (hminit iv hiv hivne)
            · exact hmub s h

/-- Claim C7: for every upstream situation with at least one deviation (and, for
each respective conclusion, at least one truthy description / start time / end
time among its deviations), the emitted incident's description is the unique
per-deviation descriptions joined by " | " in first-seen order, its start time
is the minimum of the per-deviation start times, and its end time the maximum
(times are compared as the raw strings the source compares). -/
theorem parse_situation_merges_deviations (sit : Situation) (ev : ParsedEvent)
    (h : normalizeSituation sit = some ev)
    (hd : ∃ dv ∈ sit.deviations, pyTruthy dv.description = true)
    (hs : ∃ dv ∈ sit.deviations, pyTruthy dv.startTime = true)
    (he : ∃ dv ∈ sit.deviations, pyTruthy dv.endTime = true) :
    ev.description = some (String.intercalate " | "
        (firstSeenDedup (truthyVals (fun d => d.description) sit.deviations))) ∧
    (∃ m, ev.start_time = some m ∧ m ∈ truthyVals (fun d => d.startTime) sit.deviations ∧
        ∀ s ∈ truthyVals (fun d => d.startTime) sit.deviations, m ≤ s) ∧
    (∃ m, ev.end_time = some m ∧ m ∈ truthyVals (fun d => d.endTime) sit.deviations ∧
        ∀ s ∈ truthyVals (fun d => d.endTime) sit.deviations, s ≤ m) := by
  have truthy_ex : ∀ (get : Deviation → Option String),
      (∃ dv ∈ sit.deviations, pyTruthy (get dv) = true) →
      truthyVals get sit.deviations ≠ [] := by
    intro get hex
    obtain ⟨dv, hmem, htr⟩ := hex
    cases hg : get dv with
    | none => rw [hg] at htr; exact absurd htr (by simp [pyTruthy])
    | some s =>
      rw [hg, pyTruthy_some] at htr
      have hsne : s.isEmpty = false := by
        cases h2 : s.isEmpty
        · rfl
        · rw [h2] at htr; exact absurd htr (by simp)
      have : s ∈ truthyVals get sit.deviations := mem_truthyVals hmem hg hsne
      intro hnil
      rw [hnil] at this
      exact absurd this (List.not_mem_nil s)
  cases hdevs : sit.deviations with
  | nil =>
    rw [hdevs] at hd
    obtain ⟨dv, hmem, _⟩ := hd
    exact absurd hmem (List.not_mem_nil dv)
  | cons fd rest =>
    rw [normalizeSituation, hdevs] at h
    simp only at h
    rw [Option.some_inj] at h
    subst h
    rw [hdevs] at hd hs he
    refine ⟨?_, ?_, ?_⟩
    · simp only
      have hne : mergeUnique (fun d => d.description) (fd :: rest) ≠ [] := by
        rw [mergeUnique_eq_dedup]
        exact firstSeenDedup_ne_nil (by
          have := truthy_ex (fun d => d.description) (by rw [hdevs]; exact hd)
          rw [hdevs] at this
          exact this)
      rw [if_pos hne, mergeUnique_eq_dedup]
    · simp only
      rcases foldStartTime_spec (fd :: rest) fd.startTime with ⟨_, _, htvnil⟩ |
        ⟨m, hm, hmne, hmmem, hmlb, _⟩
      · exact absurd htvnil (by
          have := truthy_ex (fun d => d.startTime) (by rw [hdevs]; exact hs)
          rw [hdevs] at this
          exact this)
      · refine ⟨m, hm, ?_, hmlb⟩
        rcases hmmem with hminit | hmin
        · exact mem_truthyVals (List.mem_cons_self fd rest) hminit.symm hmne
        · exact hmin
    · simp only
      rcases foldEndTime_spec (fd :: rest) fd.endTime with ⟨_, _, htvnil⟩ |
        ⟨m, hm, hmne, hmmem, hmub, _⟩
      · exact absurd htvnil (by
          have := truthy_ex (fun d => d.endTime) (by rw [hdevs]; exact he)
          rw [hdevs] at this
          exact this)
      · refine ⟨m, hm, ?_, hmub⟩
        rcases hmmem with hminit | hmin
        · exact mem_truthyVals (List.mem_cons_self fd rest) hminit.symm hmne
        · exact hmin

/-- Witness for C7, instantiating scenario S1: two deviations with descriptions
"A" and "B", starts 10:00 and 09:30, ends 12:00 and 12:45 yield description
"A | B", start 09:30, end 12:45. -/
theorem parse_situation_merges_deviations_witness :
    normalizeSituation sitS1 = some evS1 ∧
    (∃ dv ∈ sitS1.deviations, pyTruthy dv.description = true) ∧
    (∃ dv ∈ sitS1.deviations, pyTruthy dv.startTime = true) ∧
    (∃ dv ∈ sitS1.deviations, pyTruthy dv.endTime = true) ∧
    (evS1.description = some (String.intercalate " | "
        (firstSeenDedup (truthyVals (fun d => d.description) sitS1.deviations))) ∧
     (∃ m, evS1.start_time = some m ∧ m ∈ truthyVals (fun d => d.startTime) sitS1.deviations ∧
        ∀ s ∈ truthyVals (fun d => d.startTime) sitS1.deviations, m ≤ s) ∧
     (∃ m, evS1.end_time = some m ∧ m ∈ truthyVals (fun d => d.endTime) sitS1.deviations ∧
        ∀ s ∈ truthyVals (fun d => d.endTime) sitS1.deviations, s ≤ m)) ∧
    evS1.description = some "A | B" ∧ evS1.start_time = some "09:30" ∧
    evS1.end_time = some "12:45" :=
  ⟨by decide, ⟨devA, by decide⟩, ⟨devA, by decide⟩, ⟨devA, by decide⟩,
    parse_situation_merges_deviations sitS1 evS1 (by decide)
      ⟨devA, by decide⟩ ⟨devA, by decide⟩ ⟨devA, by decide⟩,
    rfl, rfl, rfl⟩

/-- Membership in `insertByDist`. -/
theorem mem_insertByDist {x p : Camera × ℚ} : ∀ {l : List (Camera × ℚ)},
    x ∈ insertByDist p l ↔ x = p ∨ x ∈ l := by
  intro l
  induction l with
  | nil => simp [insertByDist]
  | cons q t ih =>
    rw [insertByDist]
    by_cases h : p.2 ≤ q.2
    · simp only [if_pos h, List.mem_cons]
    · simp only [if_neg h, List.mem_cons, ih]
      tauto

/-- Membership in `sortByDist`. -/
theorem mem_sortByDist {x : Camera × ℚ} : ∀ {l : List (Camera × ℚ)},
    x ∈ sortByDist l ↔ x ∈ l := by
  intro l
  induction l with
  | nil => simp [sortByDist]
  | cons q t ih =>
    rw [sortByDist, mem_insertByDist]
    simp [ih]

/-- `insertByDist` preserves sortedness by distance. -/
theorem pairwise_insertByDist {p : Camera × ℚ} : ∀ {l : List (Camera × ℚ)},
    l.Pairwise (fun a b => a.2 ≤ b.2) →
    (insertByDist p l).Pairwise (fun a b => a.2 ≤ b.2) := by
  intro l
  induction l with
  | nil => intro _; simp [insertByDist]
  | cons q t ih =>
    intro hp
    rw [List.pairwise_cons] at hp
    obtain ⟨hq, ht⟩ := hp
    rw [insertByDist]
    by_cases h : p.2 ≤ q.2
    · rw [if_pos h, List.pairwise_cons]
      refine ⟨?_, List.pairwise_cons.mpr ⟨hq, ht⟩⟩
      intro b hb
      rcases List.mem_cons.mp hb with rfl | hb
      · exact h
      · exact le_trans h (hq b hb)
    · rw [if_neg h, List.pairwise_cons]
      refine ⟨?_, ih ht⟩
      intro b hb
      rcases mem_insertByDist.mp hb with rfl | hb
      · exact le_of_not_le h
      · exact hq b hb

/-- `sortByDist` sorts by distance. -/
theorem pairwise_sortByDist : ∀ (l : List (Camera × ℚ)),
    (sortByDist l).Pairwise (fun a b => a.2 ≤ b.2) := by
  intro l
  induction l with
  | nil => simp [sortByDist]
  | cons q t ih =>
    rw [sortByDist]
    exact pairwise_insertByDist ih

/-- Stability of `insertByDist` seen through the distance classes: filtering
one distance value commutes with insertion (the new element goes in front of
its equals). -/
theorem filter_insertByDist (x : ℚ) (p : Camera × ℚ) : ∀ (l : List (Camera × ℚ)),
    (insertByDist p l).filter (fun r => r.2 == x) =
      (if p.2 == x then p :: l.filter (fun r => r.2 == x) else l.filter (fun r => r.2 == x)) := by
  intro l
  induction l with
  | nil =>
    rw [insertByDist]
    cases h : (p.2 == x) <;> simp [List.filter, h]
  | cons q t ih =>
    rw [insertByDist]
    by_cases h : p.2 ≤ q.2
    · rw [if_pos h]
      cases hpx : (p.2 == x) <;> simp [List.filter_cons, hpx]
    · rw [if_neg h]
      rw [List.filter_cons, List.filter_cons, ih]
      cases hpx : (p.2 == x) with
      | false => simp [hpx]
      | true =>
        have hqx : (q.2 == x) = false := by
          have hlt : q.2 < p.2 := lt_of_not_le h
          have : p.2 = x := by simpa using hpx
          rw [this] at hlt
          simp only [beq_eq_false_iff_ne, ne_eq]
          exact fun hq => absurd (hq ▸ hlt) (lt_irrefl x)
        simp [hpx, hqx]

/-- Stability of `sortByDist`: within one distance class the sorted list keeps
the original order. -/
theorem filter_sortByDist (x : ℚ) : ∀ (l : List (Camera × ℚ)),
    (sortByDist l).filter (fun r => r.2 == x) = l.filter (fun r => r.2 == x) := by
  intro l
  induction l with
  | nil => rfl
  | cons q t ih =>
    rw [sortByDist, filter_insertByDist, List.filter_cons]
    cases hqx : (q.2 == x) <;> simp [hqx, ih]

/-- What membership in the candidate list implies, read off the filter
conditions of the source loop. -/
theorem mem_nearbyCandidates {d : ℚ → ℚ → ℚ → ℚ → ℚ} {la lo : ℚ} {cams : List Camera}
    {norm_target : Option String} {max_dist_km : ℚ} {p : Camera × ℚ}
    (h : p ∈ nearbyCandidates d la lo cams norm_target max_dist_km) :
    p.1 ∈ cams ∧ pyTruthy p.1.url = true ∧ calcDist d la lo p.1 = some p.2 ∧
      p.2 ≤ max_dist_km ∧ roadFilterOk norm_target p.1 = true := by
  rw [nearbyCandidates, List.mem_filterMap] at h
  obtain ⟨cam, hmem, hf⟩ := h
  by_cases hurl : pyTruthy cam.url
  · rw [if_neg (by rw [hurl]; simp)] at hf
    cases hdist : calcDist d la lo cam with
    | none => rw [hdist] at hf; exact absurd hf (by simp)
    | some dist =>
      rw [hdist] at hf
      simp only at hf
      by_cases hle : max_dist_km < dist
      · rw [if_pos hle] at hf; exact absurd hf (by simp)
      · rw [if_neg hle] at hf
        by_cases hroad : roadFilterOk norm_target cam
        · rw [if_pos hroad, Option.some_inj] at hf
          subst hf
          exact ⟨hmem, hurl, hdist, le_of_not_lt hle, hroad⟩
        · rw [if_neg hroad] at hf; exact absurd hf (by simp)
  · rw [if_pos (by rw [Bool.of_not_eq_true hurl]; simp)] at hf
    exact absurd hf (by simp)

/-- Claim C8 (amended): every camera returned by `find_nearby_cameras` has its
computed distance at most `max_dist_km` and a truthy URL; if the road tokens
extracted from its name *uppercased with spaces removed* are non-empty, the
normalized target road is among them; the result is sorted ascending by
distance, stable among equal distances (distance classes keep candidate
order), and truncated to `limit`. The great-circle formula is abstracted as
the parameter `d`. -/
theorem find_nearby_cameras_spec (d : ℚ → ℚ → ℚ → ℚ → ℚ) (la lo : ℚ)
    (cams : List Camera) (target_road : Option String) (max_dist_km : ℚ) (limit : Nat)
    (hcams : cams ≠ []) :
    (∀ p ∈ find_nearby_cameras (some la) (some lo) cams target_road max_dist_km limit d,
      calcDist d la lo p.1 = some p.2 ∧ p.2 ≤ max_dist_km ∧ pyTruthy p.1.url = true) ∧
    (∀ p ∈ find_nearby_cameras (some la) (some lo) cams target_road max_dist_km limit d,
      ∀ tgt, clean_target target_road = some tgt →
        camRoadTokens p.1 ≠ [] → tgt ∈ (camRoadTokens p.1).map pyUpper) ∧
    (find_nearby_cameras (some la) (some lo) cams target_road max_dist_km limit d).Pairwise
      (fun a b => a.2 ≤ b.2) ∧
    (find_nearby_cameras (some la) (some lo) cams target_road max_dist_km limit d).length ≤
      limit ∧
    find_nearby_cameras (some la) (some lo) cams target_road max_dist_km limit d =
      (sortByDist (nearbyCandidates d la lo cams (clean_target target_road) max_dist_km)).take
        limit ∧
    (∀ x : ℚ,
      (sortByDist (nearbyCandidates d la lo cams (clean_target target_road) max_dist_km)).filter
          (fun r => r.2 == x) =
        (nearbyCandidates d la lo cams (clean_target target_road) max_dist_km).filter
          (fun r => r.2 == x)) := by
  have hempty : cams.isEmpty = false := by
    cases h : cams
    · exact absurd h hcams
    · rfl
  have heq : find_nearby_cameras (some la) (some lo) cams target_road max_dist_km limit d =
      (sortByDist (nearbyCandidates d la lo cams (clean_target target_road) max_dist_km)).take
        limit := by
    rw [find_nearby_cameras, hempty]
    simp
  have hmem : ∀ p ∈ find_nearby_cameras (some la) (some lo) cams target_road max_dist_km limit d,
      p ∈ nearbyCandidates d la lo cams (clean_target target_road) max_dist_km := by
    intro p hp
    rw [heq] at hp
    exact mem_sortByDist.mp (List.mem_of_mem_take hp)
  refine ⟨?_, ?_, ?_, ?_, heq, fun x => filter_sortByDist x _⟩
  · intro p hp
    obtain ⟨_, hurl, hdist, hle, _⟩ := mem_nearbyCandidates (hmem p hp)
    exact ⟨hdist, hle, hurl⟩
  · intro p hp tgt htgt hroads
    obtain ⟨_, _, _, _, hroad⟩ := mem_nearbyCandidates (hmem p hp)
    rw [roadFilterOk.eq_def, htgt] at hroad
    simp only at hroad
    by_cases hc : ((camRoadTokens p.1).map pyUpper).contains tgt
    · exact List.mem_of_elem_eq_true hc
    · exfalso
      have hne : (camRoadTokens p.1).isEmpty = false := by
        cases h : camRoadTokens p.1
        · exact absurd h hroads
        · rfl
      have hcf : ((camRoadTokens p.1).map pyUpper).contains tgt = false :=
        Bool.of_not_eq_true hc
      rw [hne, hcf] at hroad
      simp at hroad
  · rw [heq]
    exact List.Pairwise.sublist (List.take_sublist _ _) (pairwise_sortByDist _)
  · rw [heq]
    exact List.length_take_le _ _

/-- Counterexample to claim C8 as stated: with target road "RV73" and radius
5 km, the camera named "E4 SYD" is returned, although its name mentions the
road token "E4" (under the claim's regex on the name) and the target "RV73" is
not among its tokens. The source extracts tokens from the space-stripped
uppercased name "E4SYD", which has none, so the camera is kept. -/
theorem find_nearby_cameras_claim_counterexample :
    find_nearby_cameras (some 0) (some 0) [camE4Syd] (some "RV73") 5 5 constDist =
      [(camE4Syd, 1)] ∧
    roadTokens (camE4Syd.name.getD "") = ["E4"] ∧
    "RV73" ∉ (roadTokens (camE4Syd.name.getD "")).map pyUpper ∧
    camRoadTokens camE4Syd = [] := by
  refine ⟨?_, by decide, by decide, by decide⟩
  decide

/-- Witness for C8 (amended), at a concrete camera list with target "E4". -/
theorem find_nearby_cameras_spec_witness :
    ([camE4Syd] : List Camera) ≠ [] ∧
    ((∀ p ∈ find_nearby_cameras (some 0) (some 0) [camE4Syd] (some "E4") 5 5 constDist,
      calcDist constDist 0 0 p.1 = some p.2 ∧ p.2 ≤ 5 ∧ pyTruthy p.1.url = true) ∧
    (∀ p ∈ find_nearby_cameras (some 0) (some 0) [camE4Syd] (some "E4") 5 5 constDist,
      ∀ tgt, clean_target (some "E4") = some tgt →
        camRoadTokens p.1 ≠ [] → tgt ∈ (camRoadTokens p.1).map pyUpper) ∧
    (find_nearby_cameras (some 0) (some 0) [camE4Syd] (some "E4") 5 5 constDist).Pairwise
      (fun a b => a.2 ≤ b.2) ∧
    (find_nearby_cameras (some 0) (some 0) [camE4Syd] (some "E4") 5 5 constDist).length ≤ 5 ∧
    find_nearby_cameras (some 0) (some 0) [camE4Syd] (some "E4") 5 5 constDist =
      (sortByDist (nearbyCandidates constDist 0 0 [camE4Syd] (clean_target (some "E4")) 5)).take
        5 ∧
    (∀ x : ℚ,
      (sortByDist (nearbyCandidates constDist 0 0 [camE4Syd] (clean_target (some "E4")) 5)).filter
          (fun r => r.2 == x) =
        (nearbyCandidates constDist 0 0 [camE4Syd] (clean_target (some "E4")) 5).filter
          (fun r => r.2 == x))) :=
  ⟨by decide, find_nearby_cameras_spec constDist 0 0 [camE4Syd] (some "E4") 5 5 (by decide)⟩

/-- `updateFirst` preserves length. -/
theorem updateFirst_length (p : α → Bool) (f : α → α) :
    ∀ l : List α, (updateFirst p f l).length = l.length := by
  intro l
  induction l with
  | nil => rfl
  | cons x xs ih =>
    rw [updateFirst]
    by_cases h : p x
    · simp [h]
    · simp [h, ih]

/-- After replacing the first `p`-element, `find? p` returns the replacement
(provided it still satisfies `p`). -/
theorem find?_updateFirst_same (p : α → Bool) (f : α → α) :
    ∀ {l : List α} {r : α}, l.find? p = some r → p (f r) = true →
      (updateFirst p f l).find? p = some (f r) := by
  intro l
  induction l with
  | nil => intro r h _; simp at h
  | cons x xs ih =>
    intro r h hf
    by_cases hx : p x
    · rw [List.find?_cons_of_pos _ hx] at h
      cases h
      rw [updateFirst, if_pos hx, List.find?_cons_of_pos _ hf]
    · rw [List.find?_cons_of_neg _ hx] at h
      rw [updateFirst, if_neg hx, List.find?_cons_of_neg _ hx]
      exact ih h hf

/-- Replacing the first `p`-element does not affect `find?` for a predicate
disjoint from `p` (before and after the replacement). -/
theorem find?_updateFirst_other (p q : α → Bool) (f : α → α)
    (hpq : ∀ r, p r = true → q r = false) (hpf : ∀ r, p r = true → q (f r) = false) :
    ∀ l : List α, (updateFirst p f l).find? q = l.find? q := by
  intro l
  induction l with
  | nil => rfl
  | cons x xs ih =>
    rw [updateFirst]
    by_cases hx : p x
    · rw [if_pos hx, List.find?_cons_of_neg _ (by simp [hpf x hx]),
        List.find?_cons_of_neg _ (by simp [hpq x hx])]
    · rw [if_neg hx]
      by_cases hqx : q x
      · rw [List.find?_cons_of_pos _ hqx, List.find?_cons_of_pos _ hqx]
      · rw [List.find?_cons_of_neg _ hqx, List.find?_cons_of_neg _ hqx, ih]

/-- A stored row whose nine compared fields agree with an update is not
flagged as significantly changed. -/
theorem has_changed_eq_false_of_synced {r : TrafficEvent} {ev : ParsedEvent}
    (h : fieldsSynced r ev) : has_changed r ev = false := by
  obtain ⟨h1, h2, h3, h4, h5, h6, h7, h8, h9⟩ := h
  rw [has_changed]
  simp only [h1, h2, h3, h4, h5, h6, h7, h8, h9, bne_self_eq_false, Bool.or_false,
    Bool.false_or]
  cases hst : pyTruthy ev.start_time <;> cases het : pyTruthy ev.end_time <;>
    simp [evStart, evEnd, hst, het]

/-- The Boolean `has_changed` decides the amended significance predicate. -/
theorem has_changed_iff_significant_spec (ex : TrafficEvent) (ev : ParsedEvent) :
    has_changed ex ev = true ↔ significant_spec ex ev := by
  have hguard : ∀ (rst evt : Option String),
      (pyTruthy evt && (rst != evt)) = true ↔
        (∃ s, evt = some s ∧ s ≠ "" ∧ rst ≠ some s) := by
    intro rst evt
    constructor
    · intro h
      rw [Bool.and_eq_true] at h
      obtain ⟨ht, hne⟩ := h
      cases hevs : evt with
      | none => rw [hevs] at ht; exact absurd ht (by simp [pyTruthy])
      | some s =>
        refine ⟨s, rfl, ?_, ?_⟩
        · rw [hevs, pyTruthy_some] at ht
          intro hs
          rw [hs] at ht
          exact absurd ht (by decide)
        · rw [hevs] at hne
          simpa using hne
    · rintro ⟨s, hse, hsne, hneq⟩
      rw [Bool.and_eq_true]
      refine ⟨?_, ?_⟩
      · rw [hse, pyTruthy_some]
        have hie : s.isEmpty = false := by
          cases h : s.isEmpty
          · rfl
          · exact absurd ((String.isEmpty_iff s).mp h) hsne
        rw [hie]
        rfl
      · rw [hse]
        simpa using hneq
  rw [has_changed, significant_spec]
  simp only [Bool.or_eq_true, bne_iff_ne, ne_eq, hguard, or_assoc]

/-- The updated row keeps the update's nine compared fields. -/
theorem updatedRow_synced (cfg : ProcCfg) (ex : TrafficEvent) (ev : ParsedEvent) :
    fieldsSynced (updatedRow cfg ex ev) ev :=
  ⟨rfl, rfl, rfl, rfl, rfl, rfl, rfl, rfl, rfl⟩

/-- The inserted row carries the update's nine compared fields. -/
theorem insertedRow_synced (cfg : ProcCfg) (nextId : Nat) (ev : ParsedEvent) :
    fieldsSynced (insertedRow cfg nextId ev) ev :=
  ⟨rfl, rfl, rfl, rfl, rfl, rfl, rfl, rfl, rfl⟩

/-- The updated row keeps the stored row's external id. -/
theorem updatedRow_external_id (cfg : ProcCfg) (ex : TrafficEvent) (ev : ParsedEvent) :
    (updatedRow cfg ex ev).external_id = ex.external_id := rfl

/-- After any processing step, the event's row exists and is synced. -/
theorem processEvent_synced (cfg : ProcCfg) (st : PState) (ev : ParsedEvent) :
    syncedIn (processEvent cfg st ev).rows ev := by
  cases h : st.rows.find? (fun r => r.external_id == ev.external_id) with
  | some ex =>
    rw [processEvent, h]
    refine ⟨updatedRow cfg ex ev, ?_, updatedRow_synced cfg ex ev⟩
    show (updateFirst _ _ st.rows).find? _ = _
    refine find?_updateFirst_same _ _ h ?_
    have hb := List.find?_some h
    rw [updatedRow_external_id]
    simpa using hb
  | none =>
    rw [processEvent, h]
    refine ⟨insertedRow cfg st.nextId ev, ?_, insertedRow_synced cfg st.nextId ev⟩
    show (st.rows ++ [insertedRow cfg st.nextId ev]).find? _ = _
    rw [List.find?_append, h]
    have hpos : ((insertedRow cfg st.nextId ev).external_id == ev.external_id) = true := by
      rw [show (insertedRow cfg st.nextId ev).external_id = ev.external_id from rfl]
      exact beq_self_eq_true ev.external_id
    have hfind : List.find? (fun r0 => r0.external_id == ev.external_id)
        [insertedRow cfg st.nextId ev] = some (insertedRow cfg st.nextId ev) :=
      List.find?_cons_of_pos _ hpos
    rw [hfind]
    rfl

/-- Processing one event does not disturb the row another external id maps to. -/
theorem processEvent_frame (cfg : ProcCfg) (st : PState) (ev ev2 : ParsedEvent)
    (hne : ev2.external_id ≠ ev.external_id) :
    (processEvent cfg st ev).rows.find? (fun r => r.external_id == ev2.external_id) =
      st.rows.find? (fun r => r.external_id == ev2.external_id) := by
  cases h : st.rows.find? (fun r => r.external_id == ev.external_id) with
  | some ex =>
    rw [processEvent, h]
    show (updateFirst _ _ st.rows).find? _ = _
    apply find?_updateFirst_other
    · intro r hr
      have hre : r.external_id = ev.external_id := by simpa using hr
      rw [hre]
      exact beq_eq_false_iff_ne.mpr (fun hh => hne hh.symm)
    · intro r _
      have hexeq : ex.external_id = ev.external_id := by simpa using List.find?_some h
      rw [updatedRow_external_id, hexeq]
      exact beq_eq_false_iff_ne.mpr (fun hh => hne hh.symm)
  | none =>
    rw [processEvent, h]
    show (st.rows ++ [insertedRow cfg st.nextId ev]).find? _ = _
    rw [List.find?_append]
    have hfalse : ((insertedRow cfg st.nextId ev).external_id == ev2.external_id) = false := by
      rw [show (insertedRow cfg st.nextId ev).external_id = ev.external_id from rfl]
      exact beq_eq_false_iff_ne.mpr (fun hh => hne hh.symm)
    have hnew : List.find? (fun r => r.external_id == ev2.external_id)
        [insertedRow cfg st.nextId ev] = none := by
      rw [List.find?_cons_of_neg _ (by simp [hfalse])]
      rfl
    rw [hnew]
    cases st.rows.find? (fun r => r.external_id == ev2.external_id) <;> rfl

/-- A synced row for a different external id stays synced across a step. -/
theorem processEvent_preserves_synced_ne (cfg : ProcCfg) (st : PState)
    (ev ev2 : ParsedEvent) (hne : ev2.external_id ≠ ev.external_id)
    (h : syncedIn st.rows ev2) : syncedIn (processEvent cfg st ev).rows ev2 := by
  obtain ⟨r, hr, hs⟩ := h
  exact ⟨r, by rw [processEvent_frame cfg st ev ev2 hne]; exact hr, hs⟩

/-- When every event being replayed is synced, a step for one of them keeps
every other one synced (also for a duplicated external id, whose fields then
agree). -/
theorem processEvent_preserves_synced (cfg : ProcCfg) (st : PState)
    (ev ev2 : ParsedEvent) (h1 : syncedIn st.rows ev) (h2 : syncedIn st.rows ev2) :
    syncedIn (processEvent cfg st ev).rows ev2 := by
  by_cases hne : ev2.external_id = ev.external_id
  · obtain ⟨r1, hr1, hs1⟩ := h1
    obtain ⟨r2, hr2, hs2⟩ := h2
    have hpred : (fun r : TrafficEvent => r.external_id == ev2.external_id) =
        (fun r : TrafficEvent => r.external_id == ev.external_id) := by
      funext r
      rw [hne]
    rw [hpred, hr1] at hr2
    have hr12 := Option.some.inj hr2
    subst hr12
    obtain ⟨rr, hrr, hsr⟩ := processEvent_synced cfg st ev
    refine ⟨rr, by rw [hpred]; exact hrr, ?_⟩
    obtain ⟨a1, a2, a3, a4, a5, a6, a7, a8, a9⟩ := hsr
    obtain ⟨b1, b2, b3, b4, b5, b6, b7, b8, b9⟩ := hs1
    obtain ⟨c1, c2, c3, c4, c5, c6, c7, c8, c9⟩ := hs2
    exact ⟨by rw [a1, ← b1, c1], by rw [a2, ← b2, c2], by rw [a3, ← b3, c3],
      by rw [a4, ← b4, c4], by rw [a5, ← b5, c5], by rw [a6, ← b6, c6],
      by rw [a7, ← b7, c7], by rw [a8, ← b8, c8], by rw [a9, ← b9, c9]⟩
  · exact processEvent_preserves_synced_ne cfg st ev ev2 hne h2

/-- Every step publishes to the broker exactly once (when connected),
regardless of whether the row is new or existing. -/
theorem processEvent_mqtt (cfg : ProcCfg) (st : PState) (ev : ParsedEvent) :
    (processEvent cfg st ev).mqttPublishes =
      st.mqttPublishes + (if cfg.mqttConnected then 1 else 0) := by
  cases h : st.rows.find? (fun r => r.external_id == ev.external_id) <;>
    rw [processEvent, h] <;> rfl

/-- A step on an already-synced event appends no version row, adds no row and
delivers no pushes. -/
theorem processEvent_existing_effects (cfg : ProcCfg) (st : PState) (ev : ParsedEvent)
    (h : syncedIn st.rows ev) :
    (processEvent cfg st ev).versions = st.versions ∧
    (processEvent cfg st ev).rows.length = st.rows.length ∧
    (processEvent cfg st ev).pushDeliveries = st.pushDeliveries := by
  obtain ⟨r, hr, hs⟩ := h
  rw [processEvent, hr]
  have hch : has_changed r ev = false := has_changed_eq_false_of_synced hs
  refine ⟨?_, ?_, rfl⟩
  · show st.versions ++ (if has_changed r ev then [mkVersion cfg.now r] else []) = st.versions
    rw [hch]
    simp
  · show (updateFirst _ _ st.rows).length = st.rows.length
    exact updateFirst_length _ _ _

/-- Unfolding of `processBatch` on a cons cell. -/
theorem processBatch_cons (cfg : ProcCfg) (st : PState) (e : ParsedEvent)
    (rest : List ParsedEvent) :
    processBatch cfg st (e :: rest) = processBatch cfg (processEvent cfg st e) rest := rfl

/-- Processing a batch of events with other external ids keeps a synced row
synced. -/
theorem processBatch_preserves_synced_ne (cfg : ProcCfg) :
    ∀ (B : List ParsedEvent) (st : PState) (ev : ParsedEvent),
      (∀ b ∈ B, b.external_id ≠ ev.external_id) → syncedIn st.rows ev →
      syncedIn (processBatch cfg st B).rows ev := by
  intro B
  induction B with
  | nil => intro st ev _ h; exact h
  | cons e rest ih =>
    intro st ev hall h
    rw [processBatch_cons]
    refine ih _ ev (fun b hb => hall b (List.mem_cons_of_mem _ hb)) ?_
    exact processEvent_preserves_synced_ne cfg st e ev
      (Ne.symm (hall e (List.mem_cons_self _ _))) h

/-- After one pass over a batch with pairwise-distinct external ids, every
event of the batch is synced in the store. -/
theorem processBatch_all_synced (cfg : ProcCfg) :
    ∀ (B : List ParsedEvent) (st : PState),
      B.Pairwise (fun a b => a.external_id ≠ b.external_id) →
      ∀ ev ∈ B, syncedIn (processBatch cfg st B).rows ev := by
  intro B
  induction B with
  | nil => intro st _ ev hev; exact absurd hev (List.not_mem_nil ev)
  | cons e rest ih =>
    intro st hp ev hev
    rw [List.pairwise_cons] at hp
    obtain ⟨hhead, htail⟩ := hp
    rw [processBatch_cons]
    rcases List.mem_cons.mp hev with rfl | hev2
    · exact processBatch_preserves_synced_ne cfg rest _ ev
        (fun b hb => Ne.symm (hhead b hb)) (processEvent_synced cfg st ev)
    · exact ih _ htail ev hev2

/-- Replaying a batch whose events are all synced in the store: no new
versions, no new rows, no pushes, one broker publish per entity when
connected. -/
theorem processBatch_replay (cfg : ProcCfg) :
    ∀ (B : List ParsedEvent) (st : PState),
      (∀ ev ∈ B, syncedIn st.rows ev) →
      (processBatch cfg st B).versions = st.versions ∧
      (processBatch cfg st B).rows.length = st.rows.length ∧
      (processBatch cfg st B).pushDeliveries = st.pushDeliveries ∧
      (processBatch cfg st B).mqttPublishes =
        st.mqttPublishes + (if cfg.mqttConnected then B.length else 0) := by
  intro B
  induction B with
  | nil =>
    intro st _
    refine ⟨rfl, rfl, rfl, ?_⟩
    cases cfg.mqttConnected <;> simp [processBatch]
  | cons e rest ih =>
    intro st hall
    rw [processBatch_cons]
    have hse := hall e (List.mem_cons_self _ _)
    have heff := processEvent_existing_effects cfg st e hse
    have hpres : ∀ ev ∈ rest, syncedIn (processEvent cfg st e).rows ev := fun ev hev =>
      processEvent_preserves_synced cfg st e ev hse (hall ev (List.mem_cons_of_mem _ hev))
    obtain ⟨hv, hl, hp, hm⟩ := ih (processEvent cfg st e) hpres
    refine ⟨by rw [hv, heff.1], by rw [hl, heff.2.1], by rw [hp, heff.2.2], ?_⟩
    rw [hm, processEvent_mqtt]
    cases cfg.mqttConnected
    · simp
    · simp only [if_true, List.length_cons]
      omega

/-- Claim C3: code_bug evaluation. The source's comment (lines 658-661) and the
computed-but-unused `loc_changed` / `has_missing_extra` (both true here) show
the intended re-sync conditions, yet `needs_camera_sync` is never assigned in
the else branch, so for this existing incident with changed coordinates and a
missing extra-camera snapshot the code decides no camera re-sync, while the
claim's predicate decides a re-sync; only a new entity triggers one. -/
theorem camera_resync_decision_is_dead_code :
    needs_camera_sync (some exC3) = false ∧
    loc_changed exC3 evC3 = true ∧
    has_missing_extra exC3 = true ∧
    claim_needs_camera_sync (some exC3) evC3 ∧
    needs_camera_sync none = true := by
  refine ⟨rfl, by decide, by decide, ?_, rfl⟩
  exact Or.inr (Or.inl ⟨⟨some "c", some "cn", none⟩, by decide, rfl⟩)

/-- Counterexample to claim C1 as stated, on three inputs. First: the update
`evC1` lacks `start_time` while the stored row has one, so the nine fields
differ (`significant_claim` holds), yet the code's `has_changed` is false and
no version row is appended while the stored start time is silently overwritten
to NULL (the nulling is a net column change, so the commit's UPDATE does bump
`updated_at` to now() through the schema's `onupdate` default — without any
version row). Second: the update `evC3` agrees on all nine compared fields
(`significant_claim` fails), so by the claim `updated_at` must not be bumped,
yet the written-through moved coordinates (and the rewritten MQTT flag) make
the flush emit an UPDATE and `onupdate` bumps `updated_at` to now(). Third: a
significant update (`evC1b`) appends a version row whose `county_no` is NULL
although the pre-update row has county 7 — the version row is not a full
copy. -/
theorem significant_change_claim_counterexample :
    significant_claim exC1 evC1 ∧
    has_changed exC1 evC1 = false ∧
    (processEvent procCfgEx stC1 evC1).versions = [] ∧
    (processEvent procCfgEx stC1 evC1).rows.map (fun r => r.start_time) = [none] ∧
    updatedFieldsChanged procCfgEx exC1 evC1 = true ∧
    (processEvent procCfgEx stC1 evC1).rows.map (fun r => r.updated_at) = ["T1"] ∧
    ¬ significant_claim exC3 evC3 ∧
    (processEvent procCfgEx stC3 evC3).versions = [] ∧
    (processEvent procCfgEx stC3 evC3).rows.map (fun r => r.latitude) = [some 60] ∧
    (processEvent procCfgEx stC3 evC3).rows.map (fun r => r.updated_at) = ["T1"] ∧
    (processEvent procCfgEx stC1 evC1b).versions.map (fun v => v.county_no) = [none] ∧
    exC1.county_no = 7 := by
  refine ⟨by decide, by decide, by decide, by decide, by decide, by decide, by decide,
    by decide, by decide, by decide, by decide, rfl⟩

/-- Claim C1 (amended): for an update hitting an existing row, exactly one
version row (the pre-update copy of the content and camera fields, with
`version_timestamp = now` and `county_no` left unset) is appended iff the
amended significance predicate holds — one of the seven always-compared
fields differs, or the update carries a non-empty start (resp. end) time
differing from the stored one. `updated_at` is bumped to now() when the
predicate holds, but also without it: the `updated_at` column's
`onupdate=datetime.datetime.now` default fires on any flush with a net
column change, so a non-significant write-through that changes a stored
value (a start/end nulled by a missing update value, moved coordinates,
camera enrichment, the rewritten MQTT flag) bumps `updated_at` with no
version row, and `updated_at` is untouched exactly when no written column
net-changes. The content fields (including a missing start/end overwritten
to NULL), coordinates-if-present and camera enrichment are always written
through in place; no push is delivered for an existing row. -/
theorem event_store_update_spec (cfg : ProcCfg) (st : PState) (ev : ParsedEvent)
    (ex : TrafficEvent)
    (h : st.rows.find? (fun r => r.external_id == ev.external_id) = some ex) :
    (significant_spec ex ev →
      (processEvent cfg st ev).versions = st.versions ++ [mkVersion cfg.now ex] ∧
      (updatedRow cfg ex ev).updated_at = cfg.now) ∧
    (¬ significant_spec ex ev →
      (processEvent cfg st ev).versions = st.versions ∧
      (updatedFieldsChanged cfg ex ev = true →
        (updatedRow cfg ex ev).updated_at = cfg.now) ∧
      (updatedFieldsChanged cfg ex ev = false →
        (updatedRow cfg ex ev).updated_at = ex.updated_at)) ∧
    (processEvent cfg st ev).rows =
      updateFirst (fun r => r.external_id == ev.external_id)
        (fun _ => updatedRow cfg ex ev) st.rows ∧
    (processEvent cfg st ev).rows.length = st.rows.length ∧
    (processEvent cfg st ev).pushDeliveries = st.pushDeliveries ∧
    fieldsSynced (updatedRow cfg ex ev) ev ∧
    (updatedRow cfg ex ev).latitude =
      (if ev.latitude.isSome then ev.latitude else ex.latitude) ∧
    (updatedRow cfg ex ev).longitude =
      (if ev.longitude.isSome then ev.longitude else ex.longitude) ∧
    (updatedRow cfg ex ev).created_at = ex.created_at ∧
    (updatedRow cfg ex ev).county_no = ex.county_no ∧
    (mkVersion cfg.now ex).version_timestamp = cfg.now ∧
    (mkVersion cfg.now ex).title = ex.title ∧
    (mkVersion cfg.now ex).description = ex.description ∧
    (mkVersion cfg.now ex).location = ex.location ∧
    (mkVersion cfg.now ex).severity_code = ex.severity_code ∧
    (mkVersion cfg.now ex).message_type = ex.message_type ∧
    (mkVersion cfg.now ex).temporary_limit = ex.temporary_limit ∧
    (mkVersion cfg.now ex).traffic_restriction_type = ex.traffic_restriction_type ∧
    (mkVersion cfg.now ex).start_time = ex.start_time ∧
    (mkVersion cfg.now ex).end_time = ex.end_time ∧
    (mkVersion cfg.now ex).latitude = ex.latitude ∧
    (mkVersion cfg.now ex).longitude = ex.longitude ∧
    (mkVersion cfg.now ex).camera_url = ex.camera_url ∧
    (mkVersion cfg.now ex).camera_snapshot = ex.camera_snapshot ∧
    (mkVersion cfg.now ex).extra_cameras = ex.extra_cameras ∧
    (mkVersion cfg.now ex).county_no = none := by
  have hiff := has_changed_iff_significant_spec ex ev
  rw [processEvent, h]
  refine ⟨?_, ?_, rfl, updateFirst_length _ _ _, rfl, updatedRow_synced cfg ex ev,
    rfl, rfl, rfl, rfl, rfl, rfl, rfl, rfl, rfl, rfl, rfl, rfl, rfl, rfl, rfl, rfl,
    rfl, rfl, rfl, rfl⟩
  · intro hs
    have hch : has_changed ex ev = true := hiff.mpr hs
    constructor
    · show st.versions ++ (if has_changed ex ev then [mkVersion cfg.now ex] else []) = _
      rw [hch]
      rfl
    · show (if has_changed ex ev || updatedFieldsChanged cfg ex ev then cfg.now
          else ex.updated_at) = cfg.now
      rw [hch, Bool.true_or]
      rfl
  · intro hs
    have hch : has_changed ex ev = false := by
      cases hcc : has_changed ex ev
      · rfl
      · exact absurd (hiff.mp hcc) hs
    refine ⟨?_, ?_, ?_⟩
    · show st.versions ++ (if has_changed ex ev then [mkVersion cfg.now ex] else []) = _
      rw [hch]
      simp
    · intro hnc
      show (if has_changed ex ev || updatedFieldsChanged cfg ex ev then cfg.now
          else ex.updated_at) = cfg.now
      rw [hch, Bool.false_or, hnc]
      rfl
    · intro hnc
      show (if has_changed ex ev || updatedFieldsChanged cfg ex ev then cfg.now
          else ex.updated_at) = ex.updated_at
      rw [hch, Bool.false_or, hnc]
      rfl

/-- Witness for C1 (amended), at the concrete store `stC1` and the significant
update `evC1b`: the lookup hypothesis holds, the update is significant, one
version row is appended and `updated_at` is bumped to "T1". -/
theorem event_store_update_spec_witness :
    stC1.rows.find? (fun r => r.external_id == evC1b.external_id) = some exC1 ∧
    significant_spec exC1 evC1b ∧
    (processEvent procCfgEx stC1 evC1b).versions = [] ++ [mkVersion "T1" exC1] ∧
    (updatedRow procCfgEx exC1 evC1b).updated_at = "T1" := by
  have h := event_store_update_spec procCfgEx stC1 evC1b exC1 (by decide)
  have hsig : significant_spec exC1 evC1b := by decide
  obtain ⟨h1, _⟩ := h
  obtain ⟨hv, hu⟩ := h1 hsig
  exact ⟨by decide, hsig, hv, hu⟩

/-- Claim C9 (amended): replaying an upstream batch with pairwise-distinct
external ids produces zero new incident rows, zero new version rows and zero
additional push deliveries — but the broker publish is repeated for every
entity of the batch whenever the MQTT client is connected
(`mqtt_client.publish_event` is called unconditionally per processed entity). -/
theorem replay_batch_idempotent (cfg : ProcCfg) (st0 : PState) (B : List ParsedEvent)
    (hdist : B.Pairwise (fun a b => a.external_id ≠ b.external_id)) :
    (processBatch cfg (processBatch cfg st0 B) B).rows.length =
      (processBatch cfg st0 B).rows.length ∧
    (processBatch cfg (processBatch cfg st0 B) B).versions =
      (processBatch cfg st0 B).versions ∧
    (processBatch cfg (processBatch cfg st0 B) B).pushDeliveries =
      (processBatch cfg st0 B).pushDeliveries ∧
    (processBatch cfg (processBatch cfg st0 B) B).mqttPublishes =
      (processBatch cfg st0 B).mqttPublishes +
        (if cfg.mqttConnected then B.length else 0) := by
  have hsync := processBatch_all_synced cfg B st0 hdist
  obtain ⟨hv, hl, hp, hm⟩ := processBatch_replay cfg B (processBatch cfg st0 B) hsync
  exact ⟨hl, hv, hp, hm⟩

/-- Counterexample to claim C9 as stated: with a connected MQTT client,
processing the one-event batch `[evC1]` publishes once; replaying the same
batch publishes again (2 ≠ 1), although rows, version rows and push deliveries
are indeed unchanged. -/
theorem replay_claim_counterexample :
    (processBatch procCfgEx pstate0 [evC1]).mqttPublishes = 1 ∧
    (processBatch procCfgEx (processBatch procCfgEx pstate0 [evC1]) [evC1]).mqttPublishes = 2 ∧
    (processBatch procCfgEx (processBatch procCfgEx pstate0 [evC1]) [evC1]).rows.length =
      (processBatch procCfgEx pstate0 [evC1]).rows.length ∧
    (processBatch procCfgEx (processBatch procCfgEx pstate0 [evC1]) [evC1]).versions =
      (processBatch procCfgEx pstate0 [evC1]).versions ∧
    (processBatch procCfgEx (processBatch procCfgEx pstate0 [evC1]) [evC1]).pushDeliveries =
      (processBatch procCfgEx pstate0 [evC1]).pushDeliveries := by
  decide

/-- Witness for C9 (amended), at the singleton batch `[evC1]`. -/
theorem replay_batch_idempotent_witness :
    ([evC1] : List ParsedEvent).Pairwise (fun a b => a.external_id ≠ b.external_id) ∧
    ((processBatch procCfgEx (processBatch procCfgEx pstate0 [evC1]) [evC1]).rows.length =
      (processBatch procCfgEx pstate0 [evC1]).rows.length ∧
    (processBatch procCfgEx (processBatch procCfgEx pstate0 [evC1]) [evC1]).versions =
      (processBatch procCfgEx pstate0 [evC1]).versions ∧
    (processBatch procCfgEx (processBatch procCfgEx pstate0 [evC1]) [evC1]).pushDeliveries =
      (processBatch procCfgEx pstate0 [evC1]).pushDeliveries ∧
    (processBatch procCfgEx (processBatch procCfgEx pstate0 [evC1]) [evC1]).mqttPublishes =
      (processBatch procCfgEx pstate0 [evC1]).mqttPublishes +
        (if procCfgEx.mqttConnected then ([evC1] : List ParsedEvent).length else 0)) :=
  ⟨by decide, replay_batch_idempotent procCfgEx pstate0 [evC1] (by decide)⟩

/-- A 4-tuple match always satisfies the code's dedup query. -/
theorem fourTupleMatch_implies_pred {rc : ParsedRoadCondition} {r : RoadCondition}
    (h : fourTupleMatch rc r) : rcDedupPred rc r = true := by
  obtain ⟨h1, h2, h3, h4⟩ := h
  rw [rcDedupPred, h1, h2, h3]
  cases hst : pyTruthy rc.start_time with
  | false => simp
  | true =>
    have : rcStartTime rc = rc.start_time := by rw [rcStartTime, if_pos hst]
    rw [h4, this]
    simp

/-- With a truthy incoming start time, the dedup query is exactly the 4-tuple
match. -/
theorem rcDedupPred_iff_fourTuple {rc : ParsedRoadCondition} (hst : pyTruthy rc.start_time = true)
    (r : RoadCondition) : rcDedupPred rc r = true ↔ fourTupleMatch rc r := by
  constructor
  · intro h
    rw [rcDedupPred, hst] at h
    simp only [Bool.not_true, Bool.false_or, Bool.and_eq_true, beq_iff_eq] at h
    obtain ⟨⟨⟨h1, h2⟩, h3⟩, h4⟩ := h
    exact ⟨h1, h2, h3, by rw [h4, rcStartTime, if_pos hst]⟩
  · exact fourTupleMatch_implies_pred

/-- Claim C2 (amended): for an incoming road condition whose id matches no
row, the code updates in place the *first* row matching its dedup query —
(road_number, condition_code, county_no), plus start_time only when the
incoming condition carries one. When the incoming condition has a truthy
start_time, that query is exactly the 4-tuple match, so an existing 4-tuple
match means the first 4-tuple-matching row is updated and no row is inserted;
and in every case a new row is inserted only when no 4-tuple match exists. -/
theorem road_condition_dedup_spec (cfg : ProcCfg) (rows : List RoadCondition)
    (rc : ParsedRoadCondition)
    (hid : rows.find? (fun r => r.id == rc.id) = none) :
    ((∃ r ∈ rows, fourTupleMatch rc r) → pyTruthy rc.start_time = true →
      (road_condition_processor_step cfg rows rc).length = rows.length ∧
      (∃ ex, rows.find? (rcDedupPred rc) = some ex ∧ fourTupleMatch rc ex ∧
        road_condition_processor_step cfg rows rc =
          updateFirst (rcDedupPred rc)
            (applyRoadCondition cfg rc (rcNeedsCameraSync (some ex) rc)
              (if rcNeedsCameraSync (some ex) rc then rcCameraLookup cfg rc ex.id
               else (none, none, none))) rows)) ∧
    ((road_condition_processor_step cfg rows rc).length ≠ rows.length →
      ¬ ∃ r ∈ rows, fourTupleMatch rc r) := by
  constructor
  · rintro ⟨r0, hr0mem, hr0match⟩ hst
    have hfind : (rows.find? (rcDedupPred rc)).isSome := by
      rw [List.find?_isSome]
      exact ⟨r0, hr0mem, fourTupleMatch_implies_pred hr0match⟩
    cases hfound : rows.find? (rcDedupPred rc) with
    | none => rw [hfound] at hfind; exact absurd hfind (by simp)
    | some ex =>
      have hexmatch : fourTupleMatch rc ex :=
        (rcDedupPred_iff_fourTuple hst ex).mp (List.find?_some hfound)
      have hstep : road_condition_processor_step cfg rows rc =
          updateFirst (rcDedupPred rc)
            (applyRoadCondition cfg rc (rcNeedsCameraSync (some ex) rc)
              (if rcNeedsCameraSync (some ex) rc then rcCameraLookup cfg rc ex.id
               else (none, none, none))) rows := by
        rw [road_condition_processor_step, hid, hfound]
      refine ⟨?_, ex, rfl, hexmatch, hstep⟩
      rw [hstep]
      exact updateFirst_length _ _ _
  · intro hlen ⟨r0, hr0mem, hr0match⟩
    cases hfound : rows.find? (rcDedupPred rc) with
    | some ex =>
      have : road_condition_processor_step cfg rows rc =
          updateFirst (rcDedupPred rc)
            (applyRoadCondition cfg rc (rcNeedsCameraSync (some ex) rc)
              (if rcNeedsCameraSync (some ex) rc then rcCameraLookup cfg rc ex.id
               else (none, none, none))) rows := by
        rw [road_condition_processor_step, hid, hfound]
      rw [this, updateFirst_length] at hlen
      exact hlen rfl
    | none =>
      have hnone := List.find?_eq_none.mp hfound r0 hr0mem
      exact hnone (fourTupleMatch_implies_pred hr0match)

/-- Counterexample to claim C2 as stated: row B is the (unique) exact 4-tuple
match of the incoming condition, but since the incoming start time is missing
the dedup query drops the start_time clause and `first()` returns row A, which
is updated in place (warning becomes "NEW"); the 4-tuple-matching row B is
left untouched. No new row is inserted, as both rows match the 3-tuple. -/
theorem road_condition_dedup_claim_counterexample :
    fourTupleMatch rcIncoming rcRowB ∧
    ¬ fourTupleMatch rcIncoming rcRowA ∧
    (road_condition_processor_step procCfgEx [rcRowA, rcRowB] rcIncoming).length = 2 ∧
    (road_condition_processor_step procCfgEx [rcRowA, rcRowB] rcIncoming).map
        (fun r => (r.id, r.warning)) =
      [(some "100", some "NEW"), (some "200", some "oldB")] := by
  refine ⟨by decide, by decide, by decide, by decide⟩

/-- Witness for C2 (amended), instantiating scenario S4: the unknown-id
condition with start 06:00 matches row A on the 4-tuple; row A is updated in
place and no new row is created. -/
theorem road_condition_dedup_spec_witness :
    ([rcRowA, rcRowB].find? (fun r => r.id == rcIncoming2.id) = none) ∧
    (∃ r ∈ [rcRowA, rcRowB], fourTupleMatch rcIncoming2 r) ∧
    pyTruthy rcIncoming2.start_time = true ∧
    (road_condition_processor_step procCfgEx [rcRowA, rcRowB] rcIncoming2).length =
      ([rcRowA, rcRowB] : List RoadCondition).length ∧
    (∃ ex, [rcRowA, rcRowB].find? (rcDedupPred rcIncoming2) = some ex ∧
      fourTupleMatch rcIncoming2 ex ∧
      road_condition_processor_step procCfgEx [rcRowA, rcRowB] rcIncoming2 =
        updateFirst (rcDedupPred rcIncoming2)
          (applyRoadCondition procCfgEx rcIncoming2
            (rcNeedsCameraSync (some ex) rcIncoming2)
            (if rcNeedsCameraSync (some ex) rcIncoming2 then
              rcCameraLookup procCfgEx rcIncoming2 ex.id
             else (none, none, none))) [rcRowA, rcRowB]) ∧
    (road_condition_processor_step procCfgEx [rcRowA, rcRowB] rcIncoming2).map
        (fun r => (r.id, r.warning)) =
      [(some "100", some "NEW"), (some "200", some "oldB")] := by
  have h := road_condition_dedup_spec procCfgEx [rcRowA, rcRowB] rcIncoming2 (by decide)
  have hex : ∃ r ∈ [rcRowA, rcRowB], fourTupleMatch rcIncoming2 r :=
    ⟨rcRowA, by decide, by decide⟩
  obtain ⟨hlen, hupd⟩ := h.1 hex (by decide)
  exact ⟨by decide, hex, by decide, hlen, hupd, by decide⟩
